import Mathlib

set_option autoImplicit false

namespace WikibookDB

/-!
Shallow embedding of the wikibook-db bulletin-board service (chapters ch01,
ch03, ch05). Entity rows mirror the SQLAlchemy models: the BaseMixin columns
(id, is_deleted, created_at, updated_at, deleted_at) plus the per-table
columns. Timestamps are seconds as naturals; nullable columns are Options.
Handlers are embedded as pure functions threading the relational state, the
Valkey key-value state and the OpenSearch index state, with Bool flags for
the outcome of each fallible external call (commit, index call).
-/

/-- Outcome of a FastAPI handler: a returned value, a raised HTTPException
with its status code, or an uncaught exception propagating out. -/
inductive HandlerResult (α : Type) where
  | ok (val : α)
  | httpError (status : Nat)
  | exn
  deriving Repr, DecidableEq

/-- Row of the board table (ch01/ch03 models/board.py plus BaseMixin). -/
structure Board where
  id : Nat
  title : String
  description : String
  is_deleted : Bool
  created_at : Nat
  updated_at : Nat
  deleted_at : Option Nat
  deriving Repr, DecidableEq

/-- Row of the article table (models/article.py plus BaseMixin). -/
structure Article where
  id : Nat
  title : String
  content : String
  author_id : Option Nat
  board_id : Option Nat
  is_deleted : Bool
  created_at : Nat
  updated_at : Nat
  deleted_at : Option Nat
  deriving Repr, DecidableEq

/-- Row of the comment table (models/comment.py plus BaseMixin). -/
structure Comment where
  id : Nat
  content : String
  author_id : Option Nat
  article_id : Option Nat
  is_deleted : Bool
  created_at : Nat
  updated_at : Nat
  deleted_at : Option Nat
  deriving Repr, DecidableEq

/-- User roles (models/user.py). -/
inductive UserRole where
  | admin
  | member
  | guest
  deriving Repr, DecidableEq

/-- Row of the user table (models/user.py plus BaseMixin); username and email
carry unique constraints in the schema. -/
structure User where
  id : Nat
  username : String
  email : String
  hashed_password : String
  role : UserRole
  last_login : Option Nat
  is_deleted : Bool
  created_at : Nat
  updated_at : Nat
  deleted_at : Option Nat
  deriving Repr, DecidableEq

/-- Row of the advertisement table (ch03/models/advertisement.py). -/
structure Advertisement where
  id : Nat
  title : String
  content : String
  is_visible : Bool
  start_date : Option Nat
  end_date : Option Nat
  view_count : Nat
  click_count : Nat
  is_deleted : Bool
  created_at : Nat
  updated_at : Nat
  deleted_at : Option Nat
  deriving Repr, DecidableEq

/-- BaseMixin.soft_delete on an article: set is_deleted and record
deleted_at = now (func.now() at commit time); nothing else is touched. -/
def Article.soft_delete (a : Article) (now : Nat) : Article :=
  { a with is_deleted := true, deleted_at := some now }

/-- BaseMixin.soft_delete on a user. -/
def User.soft_delete (u : User) (now : Nat) : User :=
  { u with is_deleted := true, deleted_at := some now }

/-- BaseMixin.soft_delete on an advertisement. -/
def Advertisement.soft_delete (ad : Advertisement) (now : Nat) : Advertisement :=
  { ad with is_deleted := true, deleted_at := some now }

/-- The relational store: one list of rows per table. -/
structure DB where
  boards : List Board
  articles : List Article
  comments : List Comment
  users : List User
  ads : List Advertisement
  deriving Repr, DecidableEq

/-- select(Board).where(Board.id == board_id, Board.is_deleted == False). -/
def findActiveBoard (db : DB) (board_id : Nat) : Option Board :=
  db.boards.find? (fun b => b.id == board_id && !b.is_deleted)

/-- select(Article).where(id == article_id, board_id == board_id,
is_deleted == False). -/
def findActiveArticle (db : DB) (article_id board_id : Nat) : Option Article :=
  db.articles.find? (fun a =>
    a.id == article_id && a.board_id == some board_id && !a.is_deleted)

/-- select(Article).where(id == article_id, is_deleted == False), the lookup
used by the ch05 message processor (no board filter). -/
def findActiveArticleById (db : DB) (article_id : Nat) : Option Article :=
  db.articles.find? (fun a => a.id == article_id && !a.is_deleted)

/-- select(Comment).where(id == comment_id, is_deleted == False). -/
def findActiveCommentById (db : DB) (comment_id : Nat) : Option Comment :=
  db.comments.find? (fun c => c.id == comment_id && !c.is_deleted)

/-- select(User).where(id == user_id, is_deleted == False). -/
def findActiveUser (db : DB) (user_id : Nat) : Option User :=
  db.users.find? (fun u => u.id == user_id && !u.is_deleted)

/-- select(Advertisement).where(id == ad_id, is_deleted == False). -/
def findActiveAd (db : DB) (ad_id : Nat) : Option Advertisement :=
  db.ads.find? (fun ad => ad.id == ad_id && !ad.is_deleted)

/-- Autoincrement primary key for a fresh article row. -/
def nextArticleId (db : DB) : Nat :=
  (db.articles.map (fun a => a.id)).foldr max 0 + 1

/-- Autoincrement primary key for a fresh comment row. -/
def nextCommentId (db : DB) : Nat :=
  (db.comments.map (fun c => c.id)).foldr max 0 + 1

/-- Autoincrement primary key for a fresh user row. -/
def nextUserId (db : DB) : Nat :=
  (db.users.map (fun u => u.id)).foldr max 0 + 1

/-- Commit of an ORM update to a fetched article row: the row with that
primary key is replaced in place. -/
def replaceArticle (db : DB) (a : Article) : DB :=
  { db with articles := db.articles.map (fun x => if x.id == a.id then a else x) }

/-- Commit of an ORM update to a fetched user row. -/
def replaceUser (db : DB) (u : User) : DB :=
  { db with users := db.users.map (fun x => if x.id == u.id then u else x) }

/-!
Valkey (Redis-compatible) state for the rate-limit keys of ch03: each key
maps to an absolute expiry instant; `setex key ttl value` stores the key
with expiry now + ttl (the stored value is always the literal string one and
is never read back, so only the expiry is kept); `exists key` is true while
now is strictly before the expiry.
-/

/-- Valkey state restricted to the rate-limit keys: key to absolute expiry. -/
structure ValkeyState where
  entries : List (String × Nat)
  deriving Repr, DecidableEq

/-- Expiry instant currently stored under a key, if any. -/
def vkLookup (vk : ValkeyState) (key : String) : Option Nat :=
  (vk.entries.find? (fun e => e.1 == key)).map (fun e => e.2)

/-- EXISTS key at instant now: present and not yet expired. -/
def vkExists (vk : ValkeyState) (now : Nat) (key : String) : Bool :=
  match vkLookup vk key with
  | some expiry => decide (now < expiry)
  | none => false

/-- SETEX key ttl value at instant now. -/
def vkSetex (vk : ValkeyState) (now ttl : Nat) (key : String) : ValkeyState :=
  ⟨(key, now + ttl) :: vk.entries.filter (fun e => e.1 != key)⟩

/-- The four rate-limited action kinds of ch03 (articles and comments each
have a write gate and an edit/delete gate). -/
inductive ActionKind where
  | articleWrite
  | articleEdit
  | commentWrite
  | commentEdit
  deriving Repr, DecidableEq

/-- Key fragment naming the action kind inside the Valkey key. -/
def kindSuffix : ActionKind → String
  | .articleWrite => "article_write"
  | .articleEdit => "article_edit"
  | .commentWrite => "comment_write"
  | .commentEdit => "comment_edit"

/-- Cooldown window per action kind, in seconds: _ARTICLE_WRITE_TTL =
_ARTICLE_EDIT_TTL = 300 (five minutes), _COMMENT_WRITE_TTL =
_COMMENT_EDIT_TTL = 60 (one minute). -/
def kindTTL : ActionKind → Nat
  | .articleWrite => 300
  | .articleEdit => 300
  | .commentWrite => 60
  | .commentEdit => 60

/-- The rate-limit key for an identity and action kind. -/
def rateKey (kind : ActionKind) (user_id : Nat) : String :=
  "rate_limit:" ++ toString user_id ++ ":" ++ kindSuffix kind

/-- The _check_*_rate_limit helpers of ch03: raise HTTPException 429 when the
key exists, otherwise pass. -/
def checkRateLimit (kind : ActionKind) (user_id now : Nat) (vk : ValkeyState) :
    Except Nat Unit :=
  if vkExists vk now (rateKey kind user_id) then Except.error 429 else Except.ok ()

/-- The _set_*_rate_limit helpers of ch03: setex the key with the kind TTL. -/
def setRateLimit (kind : ActionKind) (user_id now : Nat) (vk : ValkeyState) :
    ValkeyState :=
  vkSetex vk now (kindTTL kind) (rateKey kind user_id)

/-!
OpenSearch article index of ch03: documents are stored under the article id
with fields title, content, board_id, author_id. An index or delete call may
raise; _index_article lets the exception escape while _delete_index catches
every exception and only logs it.
-/

/-- Body of an indexed article document. -/
structure ArticleDoc where
  title : String
  content : String
  board_id : Option Nat
  author_id : Option Nat
  deriving Repr, DecidableEq

/-- The article index: document id to document body. -/
structure SearchIndex where
  docs : List (Nat × ArticleDoc)
  deriving Repr, DecidableEq

/-- The document body built by _index_article from an article row. -/
def articleDoc (a : Article) : ArticleDoc :=
  { title := a.title, content := a.content,
    board_id := a.board_id, author_id := a.author_id }

/-- Upsert of a document under an id (client.index). -/
def indexPut (idx : SearchIndex) (doc_id : Nat) (d : ArticleDoc) : SearchIndex :=
  ⟨(doc_id, d) :: idx.docs.filter (fun e => e.1 != doc_id)⟩

/-- Removal of the document under an id (client.delete). -/
def indexRemove (idx : SearchIndex) (doc_id : Nat) : SearchIndex :=
  ⟨idx.docs.filter (fun e => e.1 != doc_id)⟩

/-- ch03._index_article: index the article; callOk is whether the OpenSearch
call succeeds. There is no try/except here, so a failing call raises out of
the helper. -/
def _index_article (idx : SearchIndex) (a : Article) (callOk : Bool) :
    Except Unit SearchIndex :=
  if callOk then Except.ok (indexPut idx a.id (articleDoc a)) else Except.error ()

/-- ch03._delete_index: delete the document, catching every exception (a
failing call leaves the index unchanged and is only logged). -/
def _delete_index (idx : SearchIndex) (article_id : Nat) (callOk : Bool) :
    SearchIndex :=
  if callOk then indexRemove idx article_id else idx

/-!
ch03 article and comment handlers. Each takes the request data, the caller
identity, the clock instant, the success flags of the fallible external
calls, and the three states; it returns the handler outcome plus the final
states. An uncaught exception (failed commit, failed index call) yields
HandlerResult.exn; prior side effects persist, later steps do not run.
-/

/-- WriteArticleRequest body. -/
structure WriteArticleRequest where
  title : String
  content : String
  deriving Repr, DecidableEq

/-- EditArticleRequest body: both fields optional. -/
structure EditArticleRequest where
  title : Option String
  content : Option String
  deriving Repr, DecidableEq

/-- Final states plus result of a ch03 article handler. -/
structure Outcome (α : Type) where
  result : HandlerResult α
  db : DB
  valkey : ValkeyState
  index : SearchIndex
  deriving Repr, DecidableEq

/-- The article row built by write_article before commit (ch01 and ch03
build it identically; the timestamps are the server defaults at commit). -/
def newArticleRow (board_id : Nat) (body : WriteArticleRequest) (uid now : Nat)
    (db : DB) : Article :=
  { id := nextArticleId db, title := body.title, content := body.content,
    author_id := some uid, board_id := some board_id, is_deleted := false,
    created_at := now, updated_at := now, deleted_at := none }

/-- The article row after edit_article applies the optional fields (a field
left as None keeps the stored value); updated_at is refreshed at commit. -/
def editedArticle (a : Article) (body : EditArticleRequest) (now : Nat) :
    Article :=
  { a with title := body.title.getD a.title,
           content := body.content.getD a.content,
           updated_at := now }

/-- ch03 write_article: board lookup, write rate gate, insert + commit, set
the write mark, index the new document. -/
def write_article (board_id : Nat) (body : WriteArticleRequest) (uid now : Nat)
    (commitOk indexOk : Bool) (db : DB) (vk : ValkeyState) (idx : SearchIndex) :
    Outcome Article :=
  match findActiveBoard db board_id with
  | none => ⟨.httpError 404, db, vk, idx⟩
  | some _ =>
    if vkExists vk now (rateKey .articleWrite uid) then
      ⟨.httpError 429, db, vk, idx⟩
    else
      let article : Article := newArticleRow board_id body uid now db
      if commitOk then
        let db1 := { db with articles := db.articles ++ [article] }
        let vk1 := setRateLimit .articleWrite uid now vk
        match _index_article idx article indexOk with
        | .ok idx1 => ⟨.ok article, db1, vk1, idx1⟩
        | .error _ => ⟨.exn, db1, vk1, idx⟩
      else ⟨.exn, db, vk, idx⟩

/-- ch03 edit_article: edit rate gate, article lookup, ownership, no-op
shortcut when both fields are omitted, else mutate + commit, set the edit
mark, re-index. -/
def edit_article (board_id article_id : Nat) (body : EditArticleRequest)
    (uid now : Nat) (commitOk indexOk : Bool)
    (db : DB) (vk : ValkeyState) (idx : SearchIndex) : Outcome Article :=
  if vkExists vk now (rateKey .articleEdit uid) then
    ⟨.httpError 429, db, vk, idx⟩
  else
    match findActiveArticle db article_id board_id with
    | none => ⟨.httpError 404, db, vk, idx⟩
    | some a =>
      if a.author_id != some uid then ⟨.httpError 403, db, vk, idx⟩
      else if body.title.isNone && body.content.isNone then ⟨.ok a, db, vk, idx⟩
      else
        let a1 := editedArticle a body now
        if commitOk then
          let db1 := replaceArticle db a1
          let vk1 := setRateLimit .articleEdit uid now vk
          match _index_article idx a1 indexOk with
          | .ok idx1 => ⟨.ok a1, db1, vk1, idx1⟩
          | .error _ => ⟨.exn, db1, vk1, idx⟩
        else ⟨.exn, db, vk, idx⟩

/-- ch03 delete_article: edit rate gate, article lookup, ownership,
soft_delete + commit, set the edit mark, remove the index document (errors
there are swallowed by _delete_index). -/
def delete_article (board_id article_id : Nat) (uid now : Nat)
    (commitOk deleteOk : Bool)
    (db : DB) (vk : ValkeyState) (idx : SearchIndex) : Outcome String :=
  if vkExists vk now (rateKey .articleEdit uid) then
    ⟨.httpError 429, db, vk, idx⟩
  else
    match findActiveArticle db article_id board_id with
    | none => ⟨.httpError 404, db, vk, idx⟩
    | some a =>
      if a.author_id != some uid then ⟨.httpError 403, db, vk, idx⟩
      else
        let a1 := a.soft_delete now
        if commitOk then
          let db1 := replaceArticle db a1
          let vk1 := setRateLimit .articleEdit uid now vk
          let idx1 := _delete_index idx article_id deleteOk
          ⟨.ok "article is deleted", db1, vk1, idx1⟩
        else ⟨.exn, db, vk, idx⟩

/-- Final states plus result of a ch03 comment handler (comments never touch
the search index). -/
structure CommentOutcome where
  result : HandlerResult Comment
  db : DB
  valkey : ValkeyState
  deriving Repr, DecidableEq

/-- ch03 write_comment: comment-write rate gate, active-article lookup,
insert + commit, set the comment-write mark. -/
def write_comment (board_id article_id : Nat) (content : String) (uid now : Nat)
    (commitOk : Bool) (db : DB) (vk : ValkeyState) : CommentOutcome :=
  if vkExists vk now (rateKey .commentWrite uid) then ⟨.httpError 429, db, vk⟩
  else
    match findActiveArticle db article_id board_id with
    | none => ⟨.httpError 404, db, vk⟩
    | some _ =>
      let comment : Comment :=
        { id := nextCommentId db, content := content, author_id := some uid,
          article_id := some article_id, is_deleted := false,
          created_at := now, updated_at := now, deleted_at := none }
      if commitOk then
        ⟨.ok comment, { db with comments := db.comments ++ [comment] },
          setRateLimit .commentWrite uid now vk⟩
      else ⟨.exn, db, vk⟩

/-!
ch01 variant: the rate limit is derived from the timestamp of the latest
article row of the author (order_by ... desc, limit 1); no Valkey, no search
index. The five-minute window is 300 seconds.
-/

/-- order_by(key desc).limit(1) over a row list: a row whose key is maximal
(the first such row under the left fold). -/
def latestBy (key : Article → Nat) (rows : List Article) : Option Article :=
  rows.foldl
    (fun acc a =>
      match acc with
      | none => some a
      | some b => if key b < key a then some a else some b)
    none

/-- select(Article).where(author_id == author).order_by(created_at
desc).limit(1). -/
def ch01_latestByCreatedAt (db : DB) (author_id : Nat) : Option Article :=
  latestBy (fun a => a.created_at)
    (db.articles.filter (fun a => a.author_id == some author_id))

/-- select(Article).where(author_id == author).order_by(updated_at
desc).limit(1). -/
def ch01_latestByUpdatedAt (db : DB) (author_id : Nat) : Option Article :=
  latestBy (fun a => a.updated_at)
    (db.articles.filter (fun a => a.author_id == some author_id))

/-- ch01._check_write_rate_limit: 429 when the latest article of the author
was created less than 300 seconds ago. -/
def ch01_check_write_rate_limit (author_id now : Nat) (db : DB) :
    Except Nat Unit :=
  match ch01_latestByCreatedAt db author_id with
  | some last =>
    if now - last.created_at < 300 then Except.error 429 else Except.ok ()
  | none => Except.ok ()

/-- ch01._check_edit_rate_limit: 429 when the latest article of the author
was updated less than 300 seconds ago. -/
def ch01_check_edit_rate_limit (author_id now : Nat) (db : DB) :
    Except Nat Unit :=
  match ch01_latestByUpdatedAt db author_id with
  | some last =>
    if now - last.updated_at < 300 then Except.error 429 else Except.ok ()
  | none => Except.ok ()

/-- ch01 write_article: board lookup, derived-timestamp write gate, insert +
commit (the new row itself is the next mark). -/
def ch01_write_article (board_id : Nat) (body : WriteArticleRequest)
    (uid now : Nat) (commitOk : Bool) (db : DB) :
    HandlerResult Article × DB :=
  match findActiveBoard db board_id with
  | none => (.httpError 404, db)
  | some _ =>
    match ch01_check_write_rate_limit uid now db with
    | .error s => (.httpError s, db)
    | .ok _ =>
      let article : Article := newArticleRow board_id body uid now db
      if commitOk then (.ok article, { db with articles := db.articles ++ [article] })
      else (.exn, db)

/-- ch01 edit_article: derived-timestamp edit gate, article lookup,
ownership, no-op shortcut when both fields are omitted, else mutate +
commit. -/
def ch01_edit_article (board_id article_id : Nat) (body : EditArticleRequest)
    (uid now : Nat) (commitOk : Bool) (db : DB) :
    HandlerResult Article × DB :=
  match ch01_check_edit_rate_limit uid now db with
  | .error s => (.httpError s, db)
  | .ok _ =>
    match findActiveArticle db article_id board_id with
    | none => (.httpError 404, db)
    | some a =>
      if a.author_id != some uid then (.httpError 403, db)
      else if body.title.isNone && body.content.isNone then (.ok a, db)
      else
        let a1 := editedArticle a body now
        if commitOk then (.ok a1, replaceArticle db a1)
        else (.exn, db)

/-!
ch01 user handlers: sign_up (the one place an IntegrityError is caught and
translated into 409 Conflict) and delete_user (soft delete, allowed to the
account owner or an admin).
-/

/-- SignUpRequest body. -/
structure SignUpRequest where
  username : String
  email : String
  password : String
  deriving Repr, DecidableEq

/-- Password hashing stand-in for passlib bcrypt (an opaque-to-the-claims
string transformation). -/
def hashPassword (plain : String) : String :=
  "bcrypt:" ++ plain

/-- Whether the insert commit hits the unique constraint on username or
email: some existing row (soft-deleted or not) already holds either value. -/
def hasDuplicateUser (db : DB) (body : SignUpRequest) : Bool :=
  db.users.any (fun u => u.username == body.username || u.email == body.email)

/-- The user row built by sign_up before commit: member role, hashed
password, timestamps from the server defaults. -/
def signUpUser (body : SignUpRequest) (now : Nat) (db : DB) : User :=
  { id := nextUserId db, username := body.username, email := body.email,
    hashed_password := hashPassword body.password, role := .member,
    last_login := none, is_deleted := false,
    created_at := now, updated_at := now, deleted_at := none }

/-- ch01 sign_up: build the row, commit; an IntegrityError (duplicate key)
is caught, rolled back and translated into HTTPException 409; any other
commit failure propagates raw. -/
def sign_up (body : SignUpRequest) (now : Nat) (commitOk : Bool) (db : DB) :
    HandlerResult User × DB :=
  let user : User := signUpUser body now db
  if hasDuplicateUser db body then (.httpError 409, db)
  else if commitOk then (.ok user, { db with users := db.users ++ [user] })
  else (.exn, db)

/-- ch01 delete_user: allowed when the caller is the account owner or an
admin; the found row is soft-deleted and committed (status 204, no body). -/
def delete_user (user_id : Nat) (caller_id : Nat) (caller_role : UserRole)
    (now : Nat) (commitOk : Bool) (db : DB) : HandlerResult Unit × DB :=
  if caller_id != user_id && caller_role != UserRole.admin then
    (.httpError 403, db)
  else
    match findActiveUser db user_id with
    | none => (.httpError 404, db)
    | some u =>
      if commitOk then (.ok (), replaceUser db (u.soft_delete now))
      else (.exn, db)

/-!
ch03 advertisement cache-aside read. The Valkey value under key ad:{id} is
the JSON serialization of _ad_to_dict(ad); serialization is modeled by
storing the dictionary itself (json.dumps/json.loads round-trip). ch03 uses
plain set (no TTL) on the miss path, so the expiry slot is an Option.
-/

/-- The dictionary produced by _ad_to_dict and read back into AdResponse. -/
structure AdDict where
  id : Nat
  title : String
  content : String
  is_visible : Bool
  is_deleted : Bool
  start_date : Option Nat
  end_date : Option Nat
  view_count : Nat
  click_count : Nat
  created_at : Option Nat
  updated_at : Option Nat
  deriving Repr, DecidableEq

/-- ch03._ad_to_dict: serialize an advertisement row field by field. -/
def _ad_to_dict (ad : Advertisement) : AdDict :=
  { id := ad.id, title := ad.title, content := ad.content,
    is_visible := ad.is_visible, is_deleted := ad.is_deleted,
    start_date := ad.start_date, end_date := ad.end_date,
    view_count := ad.view_count, click_count := ad.click_count,
    created_at := some ad.created_at, updated_at := some ad.updated_at }

/-- Valkey state restricted to the ad:* keys: key, serialized payload,
optional absolute expiry. -/
structure AdCache where
  entries : List (String × AdDict × Option Nat)
  deriving Repr, DecidableEq

/-- GET key at instant now: the payload while present and not expired. -/
def adCacheGet (cache : AdCache) (now : Nat) (key : String) : Option AdDict :=
  match cache.entries.find? (fun e => e.1 == key) with
  | some (_, d, some expiry) => if now < expiry then some d else none
  | some (_, d, none) => some d
  | none => none

/-- SET key value with no expiry (the ch03 miss path). -/
def adCacheSet (cache : AdCache) (key : String) (d : AdDict) : AdCache :=
  ⟨(key, d, none) :: cache.entries.filter (fun e => e.1 != key)⟩

/-- The cache key _AD_CACHE_KEY.format(ad_id=ad_id). -/
def adCacheKey (ad_id : Nat) : String :=
  "ad:" ++ toString ad_id

/-- Result plus final cache state of ch03 get_ad. -/
structure GetAdOutcome where
  result : HandlerResult AdDict
  cache : AdCache
  deriving Repr, DecidableEq

/-- ch03 get_ad: on a cache hit deserialize and return the cached payload;
on a miss query the relational store excluding soft-deleted rows, store the
serialized row on success, or raise 404 leaving the cache untouched. -/
def get_ad (ad_id now : Nat) (db : DB) (cache : AdCache) : GetAdOutcome :=
  let key := adCacheKey ad_id
  match adCacheGet cache now key with
  | some cached => ⟨.ok cached, cache⟩
  | none =>
    match findActiveAd db ad_id with
    | none => ⟨.httpError 404, cache⟩
    | some ad => ⟨.ok (_ad_to_dict ad), adCacheSet cache key (_ad_to_dict ad)⟩

/-!
ch05 /internal/messages processor: dispatch on the embedded type field,
write notification documents into the userNotificationHistory collection.
Unknown types are accepted and ignored.
-/

/-- A userNotificationHistory document. -/
structure NotificationDoc where
  title : String
  content : String
  userId : Nat
  isRead : Bool
  createdDate : Nat
  updatedDate : Nat
  deriving Repr, DecidableEq

/-- A parsed queue message: the known type values with their payload fields,
or anything else. -/
inductive QueueMessage where
  | write_article (article_id user_id : Nat)
  | write_comment (comment_id : Nat)
  | other
  deriving Repr, DecidableEq

/-- Python set.add on a recipient list kept without duplicates. -/
def insertUnique (u : Nat) (s : List Nat) : List Nat :=
  if u ∈ s then s else s ++ [u]

/-- Add an optional author id to the recipient set (None authors are
skipped by the source's None checks). -/
def insertOptAuthor (s : List Nat) (author : Option Nat) : List Nat :=
  match author with
  | some u => insertUnique u s
  | none => s

/-- Recipient set of the write_comment fan-out: the comment author, the
author of the containing non-deleted article, and the authors of every
non-deleted comment on that article, deduplicated. -/
def commentRecipients (db : DB) (c : Comment) : List Nat :=
  let s1 := insertOptAuthor [] c.author_id
  let s2 :=
    match c.article_id with
    | some aid =>
      match findActiveArticleById db aid with
      | some a => insertOptAuthor s1 a.author_id
      | none => s1
    | none => s1
  (db.comments.filter (fun cc => cc.article_id == c.article_id && !cc.is_deleted)).foldl
    (fun s cc => insertOptAuthor s cc.author_id) s2

/-- ch05 process_message: the list of notification documents inserted while
handling one relayed message (the handler itself always answers ok). -/
def process_message (msg : QueueMessage) (now : Nat) (db : DB) :
    List NotificationDoc :=
  match msg with
  | .write_article article_id user_id =>
    match findActiveArticleById db article_id with
    | some article =>
      [{ title := "글이 작성되었습니다.", content := article.title,
         userId := user_id, isRead := false,
         createdDate := now, updatedDate := now }]
    | none => []
  | .write_comment comment_id =>
    match findActiveCommentById db comment_id with
    | none => []
    | some comment =>
      (commentRecipients db comment).map
        (fun uid =>
          { title := "댓글이 작성되었습니다.", content := comment.content,
            userId := uid, isRead := false,
            createdDate := now, updatedDate := now })
  | .other => []

/-!
ch05 daily unique-visitor aggregation over the adViewHistory /
adClickHistory collections: two MongoDB aggregation pipelines over the
window of yesterday, one for identified events (username present and
non-null, distinct usernames) and one for anonymous events (username absent
or null, distinct client addresses), merged per ad id by a Python dict.
-/

/-- A view/click history document; username none covers both an absent and
a null field (the two cases the anonymous pipeline matches together). -/
structure HistoryDoc where
  ad_id : Nat
  username : Option String
  client_ip : String
  created_date : Nat
  deriving Repr, DecidableEq

/-- ch05._yesterday_range: yesterday 00:00 to today 00:00 (UTC), with days
of 86400 seconds. -/
def _yesterday_range (now : Nat) : Nat × Nat :=
  let today := now / 86400 * 86400
  (today - 86400, today)

/-- The created_date window filter of both pipelines. -/
def inWindow (lo hi : Nat) (d : HistoryDoc) : Bool :=
  decide (lo ≤ d.created_date) && decide (d.created_date < hi)

/-- One aggregation pipeline after its match stage: group by ad_id, addToSet
of the distinguishing key, project the set size. -/
def groupDistinct (docs : List HistoryDoc) (key : HistoryDoc → String) :
    List (Nat × Nat) :=
  ((docs.map (fun d => d.ad_id)).dedup).map
    (fun a => (a, ((docs.filter (fun d => d.ad_id == a)).map key).dedup.length))

/-- Python dict lookup (key present or not). -/
def dictFind (m : List (Nat × Nat)) (k : Nat) : Option Nat :=
  (m.find? (fun e => e.1 == k)).map (fun e => e.2)

/-- Python dict read with default 0 (total.get(ad_id, 0)). -/
def dictGetD (m : List (Nat × Nat)) (k : Nat) : Nat :=
  match m.find? (fun e => e.1 == k) with
  | some e => e.2
  | none => 0

/-- Python dict write (total[ad_id] = v): update in place when the key is
present, append otherwise. -/
def dictSet (m : List (Nat × Nat)) (k v : Nat) : List (Nat × Nat) :=
  if m.any (fun e => e.1 == k) then
    m.map (fun e => if e.1 == k then (k, v) else e)
  else m ++ [(k, v)]

/-- ch05._get_history_stats: run the identified and the anonymous pipelines
over yesterday's window, then merge the two per-ad counts through the total
dict. The result pairs each ad id with its summed count. -/
def _get_history_stats (now : Nat) (docs : List HistoryDoc) :
    List (Nat × Nat) :=
  let lo := (_yesterday_range now).1
  let hi := (_yesterday_range now).2
  let windowDocs := docs.filter (inWindow lo hi)
  let userDocs := windowDocs.filter (fun d => d.username.isSome)
  let anonDocs := windowDocs.filter (fun d => d.username.isNone)
  let resultsUser := groupDistinct userDocs (fun d => d.username.getD "")
  let resultsAnon := groupDistinct anonDocs (fun d => d.client_ip)
  let totalUser := resultsUser.foldl (fun m e => dictSet m e.1 e.2) []
  resultsAnon.foldl (fun m e => dictSet m e.1 (dictGetD m e.1 + e.2)) totalUser

/-- Specification-side count of distinct identified visitors of one ad in a
window: distinct usernames among documents carrying one. -/
def identifiedVisitorCount (docs : List HistoryDoc) (lo hi a : Nat) : Nat :=
  ((docs.filter (fun d =>
      inWindow lo hi d && d.username.isSome && d.ad_id == a)).map
    (fun d => d.username.getD "")).dedup.length

/-- Specification-side count of distinct anonymous visitors of one ad in a
window: distinct client addresses among documents without a username. -/
def anonVisitorCount (docs : List HistoryDoc) (lo hi a : Nat) : Nat :=
  ((docs.filter (fun d =>
      inWindow lo hi d && d.username.isNone && d.ad_id == a)).map
    (fun d => d.client_ip)).dedup.length

/-! Helper lemmas about the Valkey rate-limit state. -/

theorem vkLookup_vkSetex_self (vk : ValkeyState) (now ttl : Nat) (key : String) :
    vkLookup (vkSetex vk now ttl key) key = some (now + ttl) := by
  simp [vkLookup, vkSetex, List.find?_cons_of_pos]

theorem vkExists_setRateLimit_self (kind : ActionKind) (uid t0 t1 : Nat)
    (vk : ValkeyState) :
    vkExists (setRateLimit kind uid t0 vk) t1 (rateKey kind uid) =
      decide (t1 < t0 + kindTTL kind) := by
  simp [vkExists, setRateLimit, vkLookup_vkSetex_self]

theorem checkRateLimit_after_set (kind : ActionKind) (uid t0 t1 : Nat)
    (vk : ValkeyState) :
    checkRateLimit kind uid t1 (setRateLimit kind uid t0 vk) =
      if t1 < t0 + kindTTL kind then Except.error 429 else Except.ok () := by
  rw [checkRateLimit, vkExists_setRateLimit_self]
  by_cases h : t1 < t0 + kindTTL kind <;> simp [h]

/-- C2: with the explicit-mark strategy the rate-limit mark is written only
after the relational commit succeeds: in every execution of the ch03
write_article, edit_article, delete_article or write_comment handler in
which the commit raises, the final Valkey state equals the initial one, so
the failed write consumes no cooldown. -/
theorem failed_commit_leaves_rate_mark (board_id article_id : Nat)
    (wbody : WriteArticleRequest) (ebody : EditArticleRequest)
    (content : String) (uid now : Nat) (indexOk deleteOk : Bool)
    (db : DB) (vk : ValkeyState) (idx : SearchIndex) :
    (write_article board_id wbody uid now false indexOk db vk idx).valkey = vk ∧
    (edit_article board_id article_id ebody uid now false indexOk db vk idx).valkey = vk ∧
    (delete_article board_id article_id uid now false deleteOk db vk idx).valkey = vk ∧
    (write_comment board_id article_id content uid now false db vk).valkey = vk := by
  refine ⟨?_, ?_, ?_, ?_⟩
  · unfold write_article
    split
    · rfl
    · split
      · rfl
      · simp
  · unfold edit_article
    split
    · rfl
    · split
      · rfl
      · split
        · rfl
        · split
          · rfl
          · simp
  · unfold delete_article
    split
    · rfl
    · split
      · rfl
      · split
        · rfl
        · simp
  · unfold write_comment
    split
    · rfl
    · split
      · rfl
      · simp

/-- C3: an edit request with both optional fields omitted is accepted once
the gates pass, returns the stored row unchanged, and leaves the relational
state, the rate-limit mark and the search index untouched, in both the ch03
and the ch01 variant of edit_article. -/
theorem noop_edit_frame (board_id article_id uid now : Nat)
    (commitOk indexOk : Bool) (db : DB) (vk : ValkeyState) (idx : SearchIndex)
    (a : Article)
    (hFind : findActiveArticle db article_id board_id = some a)
    (hOwn : a.author_id = some uid) :
    (vkExists vk now (rateKey .articleEdit uid) = false →
      edit_article board_id article_id ⟨none, none⟩ uid now commitOk indexOk
        db vk idx = ⟨.ok a, db, vk, idx⟩) ∧
    (ch01_check_edit_rate_limit uid now db = Except.ok () →
      ch01_edit_article board_id article_id ⟨none, none⟩ uid now commitOk db =
        (.ok a, db)) := by
  constructor
  · intro hGate
    unfold edit_article
    rw [hGate, hFind]
    simp [hOwn]
  · intro hGate
    unfold ch01_edit_article
    rw [hGate, hFind]
    simp [hOwn]

/-- Concrete instance of the no-op edit theorem. -/
theorem noop_edit_frame_witness :
    edit_article 2 1 ⟨none, none⟩ 7 500 true true
        ⟨[], [⟨1, "t", "c", some 7, some 2, false, 0, 0, none⟩], [], [], []⟩
        ⟨[]⟩ ⟨[]⟩ =
      ⟨.ok ⟨1, "t", "c", some 7, some 2, false, 0, 0, none⟩,
        ⟨[], [⟨1, "t", "c", some 7, some 2, false, 0, 0, none⟩], [], [], []⟩,
        ⟨[]⟩, ⟨[]⟩⟩ ∧
    ch01_edit_article 2 1 ⟨none, none⟩ 7 500 true
        ⟨[], [⟨1, "t", "c", some 7, some 2, false, 0, 0, none⟩], [], [], []⟩ =
      (.ok ⟨1, "t", "c", some 7, some 2, false, 0, 0, none⟩,
        ⟨[], [⟨1, "t", "c", some 7, some 2, false, 0, 0, none⟩], [], [], []⟩) := by
  have h := noop_edit_frame 2 1 7 500 true true
    ⟨[], [⟨1, "t", "c", some 7, some 2, false, 0, 0, none⟩], [], [], []⟩
    ⟨[]⟩ ⟨[]⟩ ⟨1, "t", "c", some 7, some 2, false, 0, 0, none⟩
    (by decide) (by decide)
  exact ⟨h.1 (by decide), h.2 (by rfl)⟩

/-- C9: soft_delete only sets is_deleted and stamps deleted_at, leaving
every other column of the row untouched (articles, users, advertisements),
and the soft-deleting handlers (ch03 delete_article, ch01 delete_user)
replace the fetched row by its soft-deleted image at commit instead of
removing it: the listed primary keys are unchanged and rows with a
different primary key are untouched. -/
theorem soft_delete_frame :
    (∀ (a : Article) (now : Nat),
      (a.soft_delete now).id = a.id ∧
      (a.soft_delete now).title = a.title ∧
      (a.soft_delete now).content = a.content ∧
      (a.soft_delete now).author_id = a.author_id ∧
      (a.soft_delete now).board_id = a.board_id ∧
      (a.soft_delete now).created_at = a.created_at ∧
      (a.soft_delete now).updated_at = a.updated_at ∧
      (a.soft_delete now).is_deleted = true ∧
      (a.soft_delete now).deleted_at = some now) ∧
    (∀ (u : User) (now : Nat),
      (u.soft_delete now).id = u.id ∧
      (u.soft_delete now).username = u.username ∧
      (u.soft_delete now).email = u.email ∧
      (u.soft_delete now).hashed_password = u.hashed_password ∧
      (u.soft_delete now).role = u.role ∧
      (u.soft_delete now).last_login = u.last_login ∧
      (u.soft_delete now).created_at = u.created_at ∧
      (u.soft_delete now).updated_at = u.updated_at ∧
      (u.soft_delete now).is_deleted = true ∧
      (u.soft_delete now).deleted_at = some now) ∧
    (∀ (ad : Advertisement) (now : Nat),
      (ad.soft_delete now).id = ad.id ∧
      (ad.soft_delete now).title = ad.title ∧
      (ad.soft_delete now).content = ad.content ∧
      (ad.soft_delete now).view_count = ad.view_count ∧
      (ad.soft_delete now).click_count = ad.click_count ∧
      (ad.soft_delete now).is_deleted = true ∧
      (ad.soft_delete now).deleted_at = some now) ∧
    (∀ (board_id article_id uid now : Nat) (deleteOk : Bool)
        (db : DB) (vk : ValkeyState) (idx : SearchIndex) (a : Article),
      vkExists vk now (rateKey .articleEdit uid) = false →
      findActiveArticle db article_id board_id = some a →
      a.author_id = some uid →
      (delete_article board_id article_id uid now true deleteOk db vk idx).result =
        .ok "article is deleted" ∧
      (delete_article board_id article_id uid now true deleteOk db vk idx).db.articles =
        db.articles.map (fun x => if x.id == a.id then a.soft_delete now else x) ∧
      (delete_article board_id article_id uid now true deleteOk db vk idx).db.articles.map
          (fun x => x.id) =
        db.articles.map (fun x => x.id)) ∧
    (∀ (user_id caller_id now : Nat) (role : UserRole) (db : DB) (u : User),
      (caller_id = user_id ∨ role = UserRole.admin) →
      findActiveUser db user_id = some u →
      delete_user user_id caller_id role now true db =
        (.ok (), replaceUser db (u.soft_delete now)) ∧
      (replaceUser db (u.soft_delete now)).users.map (fun x => x.id) =
        db.users.map (fun x => x.id)) := by
  refine ⟨fun a now => ?_, fun u now => ?_, fun ad now => ?_, ?_, ?_⟩
  · exact ⟨rfl, rfl, rfl, rfl, rfl, rfl, rfl, rfl, rfl⟩
  · exact ⟨rfl, rfl, rfl, rfl, rfl, rfl, rfl, rfl, rfl, rfl⟩
  · exact ⟨rfl, rfl, rfl, rfl, rfl, rfl, rfl⟩
  · intro board_id article_id uid now deleteOk db vk idx a hGate hFind hOwn
    unfold delete_article
    rw [hGate, hFind]
    simp only [hOwn, bne_self_eq_false, Bool.false_eq_true, if_false, if_true]
    refine ⟨trivial, rfl, ?_⟩
    rw [replaceArticle]
    simp only [List.map_map]
    refine List.map_congr_left (fun x _ => ?_)
    by_cases h : x.id = a.id
    · simp [Function.comp, h, Article.soft_delete]
    · simp [Function.comp, h, Article.soft_delete]
  · intro user_id caller_id now role db u hAuth hFind
    unfold delete_user
    have hGuard : (caller_id != user_id && role != UserRole.admin) = false := by
      rcases hAuth with h | h <;> simp [h]
    rw [hGuard, hFind]
    refine ⟨by simp, ?_⟩
    rw [replaceUser]
    simp only [List.map_map]
    refine List.map_congr_left (fun x _ => ?_)
    by_cases h : x.id = u.id
    · simp [Function.comp, h, User.soft_delete]
    · simp [Function.comp, h, User.soft_delete]

/-- Concrete instance of the soft-delete frame theorem. -/
theorem soft_delete_frame_witness :
    (delete_article 2 1 7 9 true true
        ⟨[], [⟨1, "t", "c", some 7, some 2, false, 0, 0, none⟩], [], [], []⟩
        ⟨[]⟩ ⟨[]⟩).db.articles =
      [⟨1, "t", "c", some 7, some 2, true, 0, 0, some 9⟩] ∧
    delete_user 3 3 UserRole.member 9 true
        ⟨[], [], [], [⟨3, "u", "e", "p", .member, none, false, 0, 0, none⟩], []⟩ =
      (.ok (),
        ⟨[], [], [], [⟨3, "u", "e", "p", .member, none, true, 0, 0, some 9⟩], []⟩) := by
  have h := soft_delete_frame
  have h4 := h.2.2.2.1 2 1 7 9 true
    ⟨[], [⟨1, "t", "c", some 7, some 2, false, 0, 0, none⟩], [], [], []⟩
    ⟨[]⟩ ⟨[]⟩ ⟨1, "t", "c", some 7, some 2, false, 0, 0, none⟩
    (by decide) (by decide) (by decide)
  have h5 := h.2.2.2.2 3 3 9 UserRole.member
    ⟨[], [], [], [⟨3, "u", "e", "p", .member, none, false, 0, 0, none⟩], []⟩
    ⟨3, "u", "e", "p", .member, none, false, 0, 0, none⟩
    (Or.inl rfl) (by decide)
  constructor
  · rw [h4.2.1]
    decide
  · rw [h5.1]
    decide

/-- C10: for a write_article fan-out message whose article exists and is not
soft-deleted, exactly one notification document is written, and its
recipient is the user_id field of the message, whatever the stored
author_id of the article is. -/
theorem article_fanout_recipient (article_id user_id now : Nat) (db : DB)
    (a : Article) (hFind : findActiveArticleById db article_id = some a) :
    process_message (.write_article article_id user_id) now db =
      [{ title := "글이 작성되었습니다.", content := a.title, userId := user_id,
         isRead := false, createdDate := now, updatedDate := now }] ∧
    (process_message (.write_article article_id user_id) now db).length = 1 ∧
    (process_message (.write_article article_id user_id) now db).map
        (fun d => d.userId) = [user_id] := by
  simp [process_message, hFind]

/-- Concrete instance of the article fan-out theorem: the stored author is
user 99, the message carries user 7, and the one notification goes to 7. -/
theorem article_fanout_recipient_witness :
    process_message (.write_article 1 7) 5
        ⟨[], [⟨1, "t", "c", some 99, some 2, false, 0, 0, none⟩], [], [], []⟩ =
      [⟨"글이 작성되었습니다.", "t", 7, false, 5, 5⟩] := by
  exact (article_fanout_recipient 1 7 5
    ⟨[], [⟨1, "t", "c", some 99, some 2, false, 0, 0, none⟩], [], [], []⟩
    ⟨1, "t", "c", some 99, some 2, false, 0, 0, none⟩ (by decide)).1

/-- C5: the ch03 cache-aside advertisement read. On a hit the cached payload
is returned as is, the cache is unchanged, and the relational store is not
consulted (the outcome is the same for any relational state, so a cached
but since-soft-deleted advertisement is still served). On a miss the
relational store is queried excluding soft-deleted rows: a found row is
serialized into the cache before being returned; an absent or soft-deleted
row yields 404 and writes nothing to the cache. -/
theorem cache_aside_get_ad (ad_id now : Nat) (db : DB) (cache : AdCache) :
    (∀ d : AdDict, adCacheGet cache now (adCacheKey ad_id) = some d →
      get_ad ad_id now db cache = ⟨.ok d, cache⟩ ∧
      ∀ db2 : DB, get_ad ad_id now db2 cache = get_ad ad_id now db cache) ∧
    (adCacheGet cache now (adCacheKey ad_id) = none →
      (∀ ad : Advertisement, findActiveAd db ad_id = some ad →
        ad ∈ db.ads ∧ ad.id = ad_id ∧ ad.is_deleted = false ∧
        get_ad ad_id now db cache =
          ⟨.ok (_ad_to_dict ad),
            adCacheSet cache (adCacheKey ad_id) (_ad_to_dict ad)⟩) ∧
      ((∀ ad ∈ db.ads, ad.id = ad_id → ad.is_deleted = true) →
        get_ad ad_id now db cache = ⟨.httpError 404, cache⟩)) := by
  constructor
  · intro d hHit
    constructor
    · simp only [get_ad, hHit]
    · intro db2
      simp only [get_ad, hHit]
  · intro hMiss
    constructor
    · intro ad hFound
      rw [findActiveAd] at hFound
      have hMem : ad ∈ db.ads := List.mem_of_find?_eq_some hFound
      have hProp := List.find?_some hFound
      simp only [Bool.and_eq_true, beq_iff_eq, Bool.not_eq_true'] at hProp
      refine ⟨hMem, hProp.1, hProp.2, ?_⟩
      simp only [get_ad, hMiss, findActiveAd]
      rw [hFound]
    · intro hAll
      have hNone : findActiveAd db ad_id = none := by
        rw [findActiveAd, List.find?_eq_none]
        intro ad hMem
        by_cases hid : ad.id = ad_id
        · simp [hid, hAll ad hMem hid]
        · simp [hid]
      simp only [get_ad, hMiss, hNone]

/-- Concrete instance of the cache-aside theorem: a hit serves the cached
soft-deleted payload against an empty relational store, and a miss on a
live row populates the cache. -/
theorem cache_aside_get_ad_witness :
    get_ad 4 10 ⟨[], [], [], [], []⟩
        ⟨[("ad:4", ⟨4, "sale", "x", true, true, none, none, 0, 0, some 0, some 0⟩,
            none)]⟩ =
      ⟨.ok ⟨4, "sale", "x", true, true, none, none, 0, 0, some 0, some 0⟩,
        ⟨[("ad:4", ⟨4, "sale", "x", true, true, none, none, 0, 0, some 0, some 0⟩,
            none)]⟩⟩ ∧
    get_ad 4 10
        ⟨[], [], [], [], [⟨4, "sale", "x", true, none, none, 0, 0, false, 0, 0, none⟩]⟩
        ⟨[]⟩ =
      ⟨.ok ⟨4, "sale", "x", true, false, none, none, 0, 0, some 0, some 0⟩,
        ⟨[("ad:4", ⟨4, "sale", "x", true, false, none, none, 0, 0, some 0, some 0⟩,
          none)]⟩⟩ := by
  constructor
  · exact ((cache_aside_get_ad 4 10 ⟨[], [], [], [], []⟩
      ⟨[("ad:4", ⟨4, "sale", "x", true, true, none, none, 0, 0, some 0, some 0⟩,
          none)]⟩).1
      ⟨4, "sale", "x", true, true, none, none, 0, 0, some 0, some 0⟩ (by decide)).1
  · have h := ((cache_aside_get_ad 4 10
      ⟨[], [], [], [], [⟨4, "sale", "x", true, none, none, 0, 0, false, 0, 0, none⟩]⟩
      ⟨[]⟩).2 (by decide)).1
      ⟨4, "sale", "x", true, none, none, 0, 0, false, 0, 0, none⟩ (by decide)
    exact h.2.2.2

/-- C8: a sign-up whose insert hits the username/email unique constraint is
rolled back and answered with 409 Conflict (neither suppressed nor
propagated raw); when no row holds either value, the store layer raises no
Conflict: the handler either returns the created member row or propagates
the unrelated commit failure. -/
theorem sign_up_conflict (body : SignUpRequest) (now : Nat) (commitOk : Bool)
    (db : DB) :
    ((∃ u ∈ db.users, u.username = body.username ∨ u.email = body.email) →
      sign_up body now commitOk db = (.httpError 409, db)) ∧
    ((∀ u ∈ db.users, u.username ≠ body.username ∧ u.email ≠ body.email) →
      (sign_up body now commitOk db).1 ≠ .httpError 409 ∧
      (commitOk = true →
        sign_up body now commitOk db =
          (.ok (signUpUser body now db),
            { db with users := db.users ++ [signUpUser body now db] }))) := by
  constructor
  · intro ⟨u, hMem, hDup⟩
    have hAny : hasDuplicateUser db body = true := by
      rw [hasDuplicateUser, List.any_eq_true]
      refine ⟨u, hMem, ?_⟩
      rcases hDup with h | h <;> simp [h]
    unfold sign_up
    rw [hAny]
    rfl
  · intro hAll
    have hAny : hasDuplicateUser db body = false := by
      rw [hasDuplicateUser]
      by_cases h : db.users.any
          (fun u => u.username == body.username || u.email == body.email) = true
      · rw [List.any_eq_true] at h
        obtain ⟨u, hMem, hP⟩ := h
        rw [Bool.or_eq_true, beq_iff_eq, beq_iff_eq] at hP
        rcases hP with h | h
        · exact absurd h (hAll u hMem).1
        · exact absurd h (hAll u hMem).2
      · exact Bool.not_eq_true _ ▸ Bool.of_not_eq_true h
    constructor
    · unfold sign_up
      rw [hAny]
      cases commitOk <;> simp
    · intro hc
      unfold sign_up
      rw [hAny, hc]
      rfl

/-- Concrete instance of the sign-up theorem: a duplicate email yields 409
with the store unchanged; a fresh pair signs up. -/
theorem sign_up_conflict_witness :
    sign_up ⟨"bob", "a@x", "pw"⟩ 3 true
        ⟨[], [], [], [⟨1, "alice", "a@x", "h", .member, none, false, 0, 0, none⟩], []⟩ =
      (.httpError 409,
        ⟨[], [], [], [⟨1, "alice", "a@x", "h", .member, none, false, 0, 0, none⟩], []⟩) ∧
    (sign_up ⟨"bob", "b@x", "pw"⟩ 3 true ⟨[], [], [], [], []⟩).1 ≠
      .httpError 409 := by
  constructor
  · exact (sign_up_conflict ⟨"bob", "a@x", "pw"⟩ 3 true
      ⟨[], [], [], [⟨1, "alice", "a@x", "h", .member, none, false, 0, 0, none⟩], []⟩).1
      ⟨⟨1, "alice", "a@x", "h", .member, none, false, 0, 0, none⟩,
        by decide, Or.inr rfl⟩
  · exact ((sign_up_conflict ⟨"bob", "b@x", "pw"⟩ 3 true
      ⟨[], [], [], [], []⟩).2 (by intro u hu; cases hu)).1

/-- C4 counterexample: in the ch03 write_article handler a failing index
call after a successful commit is not caught: at this input the commit
succeeds (the new row is stored) yet the handler propagates the exception
instead of returning success. -/
theorem index_error_swallowed_cex :
    (write_article 2 ⟨"t", "c"⟩ 7 0 true false
        ⟨[⟨2, "b", "d", false, 0, 0, none⟩], [], [], [], []⟩ ⟨[]⟩ ⟨[]⟩).result =
      HandlerResult.exn ∧
    (write_article 2 ⟨"t", "c"⟩ 7 0 true false
        ⟨[⟨2, "b", "d", false, 0, 0, none⟩], [], [], [], []⟩ ⟨[]⟩ ⟨[]⟩).db.articles.length =
      1 := by
  decide

/-- C4 amended: after a successful commit, a failing document removal in
the soft-delete handler is caught and suppressed (the handler still returns
success, keeping the committed soft delete), while a failing index call in
the create and edit handlers propagates out of the handler; in every case
the committed relational write is not rolled back. -/
theorem index_error_amended (board_id article_id uid now : Nat)
    (wbody : WriteArticleRequest) (ebody : EditArticleRequest)
    (db : DB) (vk : ValkeyState) (idx : SearchIndex) :
    (∀ b : Board, findActiveBoard db board_id = some b →
      vkExists vk now (rateKey .articleWrite uid) = false →
      (write_article board_id wbody uid now true false db vk idx).result =
        HandlerResult.exn ∧
      (write_article board_id wbody uid now true false db vk idx).db.articles =
        db.articles ++ [newArticleRow board_id wbody uid now db]) ∧
    (∀ a : Article, vkExists vk now (rateKey .articleEdit uid) = false →
      findActiveArticle db article_id board_id = some a →
      a.author_id = some uid →
      (ebody.title.isNone && ebody.content.isNone) = false →
      (edit_article board_id article_id ebody uid now true false db vk idx).result =
        HandlerResult.exn ∧
      (edit_article board_id article_id ebody uid now true false db vk idx).db =
        replaceArticle db (editedArticle a ebody now)) ∧
    (∀ a : Article, vkExists vk now (rateKey .articleEdit uid) = false →
      findActiveArticle db article_id board_id = some a →
      a.author_id = some uid →
      (delete_article board_id article_id uid now true false db vk idx).result =
        HandlerResult.ok "article is deleted" ∧
      (delete_article board_id article_id uid now true false db vk idx).db =
        replaceArticle db (a.soft_delete now) ∧
      (delete_article board_id article_id uid now true false db vk idx).index =
        idx) := by
  refine ⟨?_, ?_, ?_⟩
  · intro b hb hg
    unfold write_article
    rw [hb, hg]
    simp [_index_article]
  · intro a hg hFind hOwn hNN
    unfold edit_article
    rw [hg, hFind]
    simp [hOwn, hNN, _index_article]
  · intro a hg hFind hOwn
    unfold delete_article
    rw [hg, hFind]
    simp [hOwn, _delete_index]

/-- Concrete instance of the amended index-error theorem. -/
theorem index_error_amended_witness :
    (write_article 2 ⟨"t", "c"⟩ 7 0 true false
        ⟨[⟨2, "b", "d", false, 0, 0, none⟩],
          [⟨1, "t0", "c0", some 7, some 2, false, 0, 0, none⟩], [], [], []⟩
        ⟨[]⟩ ⟨[]⟩).result = HandlerResult.exn ∧
    (edit_article 2 1 ⟨some "t2", none⟩ 7 0 true false
        ⟨[⟨2, "b", "d", false, 0, 0, none⟩],
          [⟨1, "t0", "c0", some 7, some 2, false, 0, 0, none⟩], [], [], []⟩
        ⟨[]⟩ ⟨[]⟩).result = HandlerResult.exn ∧
    (delete_article 2 1 7 0 true false
        ⟨[⟨2, "b", "d", false, 0, 0, none⟩],
          [⟨1, "t0", "c0", some 7, some 2, false, 0, 0, none⟩], [], [], []⟩
        ⟨[]⟩ ⟨[]⟩).result = HandlerResult.ok "article is deleted" := by
  have h := index_error_amended 2 1 7 0 ⟨"t", "c"⟩ ⟨some "t2", none⟩
    ⟨[⟨2, "b", "d", false, 0, 0, none⟩],
      [⟨1, "t0", "c0", some 7, some 2, false, 0, 0, none⟩], [], [], []⟩
    ⟨[]⟩ ⟨[]⟩
  refine ⟨(h.1 ⟨2, "b", "d", false, 0, 0, none⟩ (by decide) (by decide)).1, ?_, ?_⟩
  · exact (h.2.1 ⟨1, "t0", "c0", some 7, some 2, false, 0, 0, none⟩
      (by decide) (by decide) (by decide) (by decide)).1
  · exact (h.2.2 ⟨1, "t0", "c0", some 7, some 2, false, 0, 0, none⟩
      (by decide) (by decide) (by decide)).1

/-! Inversion lemmas: what a successful first write implies about the final
states, used for the cooldown-window claim. -/

theorem write_article_ok_inv (board_id uid now : Nat)
    (body : WriteArticleRequest) (iOk : Bool) (db : DB) (vk : ValkeyState)
    (idx : SearchIndex) (a : Article)
    (h : (write_article board_id body uid now true iOk db vk idx).result =
      HandlerResult.ok a) :
    (∃ b, findActiveBoard db board_id = some b) ∧
    vkExists vk now (rateKey .articleWrite uid) = false ∧
    a = newArticleRow board_id body uid now db ∧
    (write_article board_id body uid now true iOk db vk idx).db =
      { db with articles := db.articles ++ [newArticleRow board_id body uid now db] } ∧
    (write_article board_id body uid now true iOk db vk idx).valkey =
      setRateLimit .articleWrite uid now vk := by
  unfold write_article at h ⊢
  rcases hb : findActiveBoard db board_id with _ | b <;> rw [hb] at h
  · simp at h
  · by_cases hg : vkExists vk now (rateKey ActionKind.articleWrite uid) = true
    · simp [hg] at h
    · rw [Bool.not_eq_true] at hg
      rw [hg] at h ⊢
      simp only [Bool.false_eq_true, if_false, if_true] at h ⊢
      rcases hidx : _index_article idx (newArticleRow board_id body uid now db) iOk
          with u | idx1 <;> rw [hidx] at h
      · simp at h
      · simp only [HandlerResult.ok.injEq] at h
        exact ⟨⟨b, rfl⟩, trivial, h.symm, rfl, rfl⟩

theorem write_comment_ok_inv (board_id article_id uid now : Nat)
    (content : String) (db : DB) (vk : ValkeyState) (c : Comment)
    (h : (write_comment board_id article_id content uid now true db vk).result =
      HandlerResult.ok c) :
    vkExists vk now (rateKey .commentWrite uid) = false ∧
    (∃ a, findActiveArticle db article_id board_id = some a) ∧
    (write_comment board_id article_id content uid now true db vk).db =
      { db with comments := db.comments ++
          [⟨nextCommentId db, content, some uid, some article_id, false, now, now, none⟩] } ∧
    (write_comment board_id article_id content uid now true db vk).valkey =
      setRateLimit .commentWrite uid now vk := by
  unfold write_comment at h ⊢
  by_cases hg : vkExists vk now (rateKey ActionKind.commentWrite uid) = true
  · simp [hg] at h
  · rw [Bool.not_eq_true] at hg
    rw [hg] at h ⊢
    simp only [Bool.false_eq_true, if_false, if_true] at h ⊢
    rcases ha : findActiveArticle db article_id board_id with _ | a <;> rw [ha] at h
    · simp at h
    · exact ⟨trivial, ⟨a, rfl⟩, rfl, rfl⟩

theorem ch01_write_article_ok_inv (board_id uid now : Nat)
    (body : WriteArticleRequest) (db : DB) (a : Article)
    (h : (ch01_write_article board_id body uid now true db).1 =
      HandlerResult.ok a) :
    (∃ b, findActiveBoard db board_id = some b) ∧
    ch01_check_write_rate_limit uid now db = Except.ok () ∧
    a = newArticleRow board_id body uid now db ∧
    (ch01_write_article board_id body uid now true db).2 =
      { db with articles := db.articles ++ [newArticleRow board_id body uid now db] } := by
  unfold ch01_write_article at h ⊢
  rcases hb : findActiveBoard db board_id with _ | b <;> rw [hb] at h
  · simp at h
  · rcases hc : ch01_check_write_rate_limit uid now db with s | u <;> rw [hc] at h
    · simp at h
    · simp only [if_true, HandlerResult.ok.injEq] at h
      exact ⟨⟨b, rfl⟩, rfl, h.symm, rfl⟩

/-- A maximal element produced by the left fold behind latestBy, starting
from a some accumulator. -/
theorem latestBy_foldl_some (key : Article → Nat) (rows : List Article) :
    ∀ c : Article,
      ∃ b, rows.foldl
          (fun acc a =>
            match acc with
            | none => some a
            | some b => if key b < key a then some a else some b)
          (some c) = some b ∧
        (b = c ∨ b ∈ rows) ∧ key c ≤ key b ∧ ∀ x ∈ rows, key x ≤ key b := by
  induction rows with
  | nil =>
    intro c
    exact ⟨c, rfl, Or.inl rfl, Nat.le_refl _, by simp⟩
  | cons a t ih =>
    intro c
    by_cases h : key c < key a
    · obtain ⟨b, hb, hmem, hle, hall⟩ := ih a
      refine ⟨b, ?_, ?_, Nat.le_of_lt (Nat.lt_of_lt_of_le h hle), ?_⟩
      · rw [List.foldl_cons]
        simpa [h] using hb
      · rcases hmem with rfl | hm
        · exact Or.inr (List.mem_cons_self _ _)
        · exact Or.inr (List.mem_cons_of_mem _ hm)
      · intro x hx
        rcases List.mem_cons.mp hx with rfl | hx
        · exact hle
        · exact hall x hx
    · obtain ⟨b, hb, hmem, hle, hall⟩ := ih c
      refine ⟨b, ?_, ?_, hle, ?_⟩
      · rw [List.foldl_cons]
        simpa [h] using hb
      · rcases hmem with rfl | hm
        · exact Or.inl rfl
        · exact Or.inr (List.mem_cons_of_mem _ hm)
      · intro x hx
        rcases List.mem_cons.mp hx with rfl | hx
        · exact Nat.le_trans (Nat.le_of_not_lt h) hle
        · exact hall x hx

/-- latestBy of a nonempty list is some maximal member. -/
theorem latestBy_spec (key : Article → Nat) (rows : List Article)
    (hne : rows ≠ []) :
    ∃ b, latestBy key rows = some b ∧ b ∈ rows ∧ ∀ x ∈ rows, key x ≤ key b := by
  cases rows with
  | nil => exact absurd rfl hne
  | cons a t =>
    obtain ⟨b, hb, hmem, hle, hall⟩ := latestBy_foldl_some key t a
    refine ⟨b, ?_, ?_, ?_⟩
    · rw [latestBy, List.foldl_cons]
      exact hb
    · rcases hmem with rfl | hm
      · exact List.mem_cons_self _ _
      · exact List.mem_cons_of_mem _ hm
    · intro x hx
      rcases List.mem_cons.mp hx with rfl | hx
      · exact hle
      · exact hall x hx

/-- C1: a successful operation arms the cooldown for its identity and
action kind: a second operation started strictly inside the window (300
seconds for article write/edit, 60 for comment write/edit) fails with 429
RateLimited, and one started once the window has elapsed is not rejected by
the rate-limit gate. Stated for the generic ch03 explicit-mark gate over
every action kind, for the full ch03 write_article and write_comment
handlers, and for the ch01 derived-timestamp write_article handler (there
the after-window half assumes the prior rows of the identity are no newer
than the first operation). -/
theorem rate_limit_cooldown_window (kind : ActionKind) (uid t0 t1 : Nat)
    (vk : ValkeyState) :
    ((t1 < t0 + kindTTL kind →
        checkRateLimit kind uid t1 (setRateLimit kind uid t0 vk) =
          Except.error 429) ∧
     (t0 + kindTTL kind ≤ t1 →
        checkRateLimit kind uid t1 (setRateLimit kind uid t0 vk) =
          Except.ok ())) ∧
    (∀ (board_id : Nat) (body body2 : WriteArticleRequest) (iOk c2 i2 : Bool)
        (db : DB) (idx : SearchIndex) (a : Article),
      (write_article board_id body uid t0 true iOk db vk idx).result =
        HandlerResult.ok a →
      (t1 < t0 + 300 →
        (write_article board_id body2 uid t1 c2 i2
            (write_article board_id body uid t0 true iOk db vk idx).db
            (write_article board_id body uid t0 true iOk db vk idx).valkey
            (write_article board_id body uid t0 true iOk db vk idx).index).result =
          HandlerResult.httpError 429) ∧
      (t0 + 300 ≤ t1 →
        (write_article board_id body2 uid t1 c2 i2
            (write_article board_id body uid t0 true iOk db vk idx).db
            (write_article board_id body uid t0 true iOk db vk idx).valkey
            (write_article board_id body uid t0 true iOk db vk idx).index).result ≠
          HandlerResult.httpError 429)) ∧
    (∀ (board_id article_id : Nat) (content content2 : String) (c2 : Bool)
        (db : DB) (c : Comment),
      (write_comment board_id article_id content uid t0 true db vk).result =
        HandlerResult.ok c →
      (t1 < t0 + 60 →
        (write_comment board_id article_id content2 uid t1 c2
            (write_comment board_id article_id content uid t0 true db vk).db
            (write_comment board_id article_id content uid t0 true db vk).valkey).result =
          HandlerResult.httpError 429) ∧
      (t0 + 60 ≤ t1 →
        (write_comment board_id article_id content2 uid t1 c2
            (write_comment board_id article_id content uid t0 true db vk).db
            (write_comment board_id article_id content uid t0 true db vk).valkey).result ≠
          HandlerResult.httpError 429)) ∧
    (∀ (board_id : Nat) (body body2 : WriteArticleRequest) (c2 : Bool)
        (db : DB) (a : Article),
      (ch01_write_article board_id body uid t0 true db).1 =
        HandlerResult.ok a →
      (t1 < t0 + 300 →
        (ch01_write_article board_id body2 uid t1 c2
            (ch01_write_article board_id body uid t0 true db).2).1 =
          HandlerResult.httpError 429) ∧
      (t0 + 300 ≤ t1 →
        (∀ x ∈ db.articles, x.author_id = some uid → x.created_at ≤ t0) →
        (ch01_write_article board_id body2 uid t1 c2
            (ch01_write_article board_id body uid t0 true db).2).1 ≠
          HandlerResult.httpError 429)) := by
  refine ⟨⟨?_, ?_⟩, ?_, ?_, ?_⟩
  · intro hlt
    rw [checkRateLimit_after_set, if_pos hlt]
  · intro hge
    rw [checkRateLimit_after_set, if_neg (Nat.not_lt.mpr hge)]
  · intro board_id body body2 iOk c2 i2 db idx a h
    obtain ⟨⟨b, hb⟩, hg, hEqA, hdb, hvk⟩ :=
      write_article_ok_inv board_id uid t0 body iOk db vk idx a h
    rw [hdb, hvk]
    generalize (write_article board_id body uid t0 true iOk db vk idx).index = idxA
    constructor
    · intro hlt
      unfold write_article
      have hb2 : findActiveBoard
          { db with articles :=
              db.articles ++ [newArticleRow board_id body uid t0 db] } board_id =
          some b := hb
      rw [hb2]
      have hex : vkExists (setRateLimit ActionKind.articleWrite uid t0 vk) t1
          (rateKey ActionKind.articleWrite uid) = true := by
        rw [vkExists_setRateLimit_self]
        simpa [kindTTL] using hlt
      rw [hex]
      simp
    · intro hge
      unfold write_article
      have hex : vkExists (setRateLimit ActionKind.articleWrite uid t0 vk) t1
          (rateKey ActionKind.articleWrite uid) = false := by
        rw [vkExists_setRateLimit_self]
        simpa [kindTTL] using Nat.not_lt.mpr hge
      rw [hex]
      rcases hb2 : findActiveBoard
          { db with articles :=
              db.articles ++ [newArticleRow board_id body uid t0 db] } board_id
          with _ | b2
      · simp
      · simp only [Bool.false_eq_true, if_false]
        cases c2
        · simp
        · rcases hidx2 : _index_article idxA
              (newArticleRow board_id body2 uid t1
                { db with articles :=
                    db.articles ++ [newArticleRow board_id body uid t0 db] }) i2
              with u | j <;> simp
  · intro board_id article_id content content2 c2 db c h
    obtain ⟨hg, ⟨a, hart⟩, hdb, hvk⟩ :=
      write_comment_ok_inv board_id article_id uid t0 content db vk c h
    rw [hdb, hvk]
    constructor
    · intro hlt
      unfold write_comment
      have hex : vkExists (setRateLimit ActionKind.commentWrite uid t0 vk) t1
          (rateKey ActionKind.commentWrite uid) = true := by
        rw [vkExists_setRateLimit_self]
        simpa [kindTTL] using hlt
      rw [hex]
      simp
    · intro hge
      unfold write_comment
      have hex : vkExists (setRateLimit ActionKind.commentWrite uid t0 vk) t1
          (rateKey ActionKind.commentWrite uid) = false := by
        rw [vkExists_setRateLimit_self]
        simpa [kindTTL] using Nat.not_lt.mpr hge
      rw [hex]
      simp only [Bool.false_eq_true, if_false]
      rcases ha2 : findActiveArticle
          { db with comments := db.comments ++
              [⟨nextCommentId db, content, some uid, some article_id, false,
                t0, t0, none⟩] } article_id board_id with _ | a2
      · simp
      · cases c2 <;> simp
  · intro board_id body body2 c2 db a h
    obtain ⟨⟨b, hb⟩, hc, hEqA, hdb⟩ :=
      ch01_write_article_ok_inv board_id uid t0 body db a h
    rw [hdb]
    have hartmem : newArticleRow board_id body uid t0 db ∈
        (db.articles ++ [newArticleRow board_id body uid t0 db]).filter
          (fun x => x.author_id == some uid) := by
      refine List.mem_filter.mpr ⟨List.mem_append_right _ ?_, ?_⟩
      · exact List.mem_singleton.mpr rfl
      · simp [newArticleRow]
    obtain ⟨bmax, hlatest, hmem, hmax⟩ :=
      latestBy_spec (fun x => x.created_at)
        ((db.articles ++ [newArticleRow board_id body uid t0 db]).filter
          (fun x => x.author_id == some uid))
        (List.ne_nil_of_mem hartmem)
    have hl2 : ch01_latestByCreatedAt
        { db with articles := db.articles ++ [newArticleRow board_id body uid t0 db] }
        uid = some bmax := hlatest
    have ht0le : t0 ≤ bmax.created_at := hmax _ hartmem
    have hb2 : findActiveBoard
        { db with articles := db.articles ++ [newArticleRow board_id body uid t0 db] }
        board_id = some b := hb
    constructor
    · intro hlt
      have hcheck : ch01_check_write_rate_limit uid t1
          { db with articles := db.articles ++ [newArticleRow board_id body uid t0 db] } =
          Except.error 429 := by
        rw [ch01_check_write_rate_limit, hl2]
        show (if t1 - bmax.created_at < 300 then (Except.error 429 : Except Nat Unit)
            else Except.ok ()) = Except.error 429
        rw [if_pos (by omega)]
      unfold ch01_write_article
      rw [hb2, hcheck]
    · intro hge hold
      have hble : bmax.created_at ≤ t0 := by
        rcases List.mem_append.mp (List.mem_filter.mp hmem).1 with hm | hm
        · refine hold bmax hm ?_
          have := (List.mem_filter.mp hmem).2
          simpa using this
        · rw [List.mem_singleton.mp hm]
          exact Nat.le_refl t0
      have hcheck : ch01_check_write_rate_limit uid t1
          { db with articles := db.articles ++ [newArticleRow board_id body uid t0 db] } =
          Except.ok () := by
        rw [ch01_check_write_rate_limit, hl2]
        show (if t1 - bmax.created_at < 300 then (Except.error 429 : Except Nat Unit)
            else Except.ok ()) = Except.ok ()
        rw [if_neg (by omega)]
      unfold ch01_write_article
      rw [hb2, hcheck]
      cases c2 <;> simp

/-- Concrete instance of the cooldown-window theorem: the comment-write gate
rejects at 59 seconds and passes at 60; a ch01 second article write 100
seconds after the first is rejected with 429. -/
theorem rate_limit_cooldown_window_witness :
    checkRateLimit .commentWrite 7 59 (setRateLimit .commentWrite 7 0 ⟨[]⟩) =
      Except.error 429 ∧
    checkRateLimit .commentWrite 7 60 (setRateLimit .commentWrite 7 0 ⟨[]⟩) =
      Except.ok () ∧
    (ch01_write_article 2 ⟨"t2", "c2"⟩ 7 100 true
        (ch01_write_article 2 ⟨"t", "c"⟩ 7 0 true
          ⟨[⟨2, "b", "d", false, 0, 0, none⟩], [], [], [], []⟩).2).1 =
      HandlerResult.httpError 429 := by
  refine ⟨(rate_limit_cooldown_window .commentWrite 7 0 59 ⟨[]⟩).1.1 (by decide),
    (rate_limit_cooldown_window .commentWrite 7 0 60 ⟨[]⟩).1.2 (by decide), ?_⟩
  exact ((rate_limit_cooldown_window .articleWrite 7 0 100 ⟨[]⟩).2.2.2
    2 ⟨"t", "c"⟩ ⟨"t2", "c2"⟩ true
    ⟨[⟨2, "b", "d", false, 0, 0, none⟩], [], [], [], []⟩
    (newArticleRow 2 ⟨"t", "c"⟩ 7 0
      ⟨[⟨2, "b", "d", false, 0, 0, none⟩], [], [], [], []⟩)
    (by decide)).1 (by decide)

/-! Helper lemmas for the comment fan-out recipient set. -/

theorem mem_insertUnique (u v : Nat) (s : List Nat) :
    u ∈ insertUnique v s ↔ u = v ∨ u ∈ s := by
  rw [insertUnique]
  by_cases h : v ∈ s
  · rw [if_pos h]
    constructor
    · exact Or.inr
    · rintro (rfl | hu)
      · exact h
      · exact hu
  · rw [if_neg h, List.mem_append, List.mem_singleton]
    tauto

theorem nodup_insertUnique (v : Nat) (s : List Nat) (hs : s.Nodup) :
    (insertUnique v s).Nodup := by
  rw [insertUnique]
  by_cases h : v ∈ s
  · rw [if_pos h]
    exact hs
  · rw [if_neg h]
    refine List.Nodup.append hs (List.nodup_singleton v) ?_
    intro x hx hxv
    rw [List.mem_singleton] at hxv
    exact h (hxv ▸ hx)

theorem mem_insertOptAuthor (u : Nat) (s : List Nat) (o : Option Nat) :
    u ∈ insertOptAuthor s o ↔ o = some u ∨ u ∈ s := by
  cases o with
  | none => simp [insertOptAuthor]
  | some v =>
    rw [show insertOptAuthor s (some v) = insertUnique v s from rfl,
      mem_insertUnique]
    constructor
    · rintro (rfl | hu)
      · exact Or.inl rfl
      · exact Or.inr hu
    · rintro (hv | hu)
      · exact Or.inl (Option.some.injEq _ _ ▸ hv).symm
      · exact Or.inr hu

theorem nodup_insertOptAuthor (s : List Nat) (o : Option Nat) (hs : s.Nodup) :
    (insertOptAuthor s o).Nodup := by
  cases o with
  | none => exact hs
  | some v => exact nodup_insertUnique v s hs

theorem mem_foldl_insertOptAuthor (l : List Comment) :
    ∀ (s : List Nat) (u : Nat),
      u ∈ l.foldl (fun s cc => insertOptAuthor s cc.author_id) s ↔
        u ∈ s ∨ ∃ cc ∈ l, cc.author_id = some u := by
  induction l with
  | nil =>
    intro s u
    simp
  | cons c t ih =>
    intro s u
    rw [List.foldl_cons, ih, mem_insertOptAuthor]
    simp only [List.mem_cons]
    constructor
    · rintro ((hc | hs) | ⟨cc, hm, hcc⟩)
      · exact Or.inr ⟨c, Or.inl rfl, hc⟩
      · exact Or.inl hs
      · exact Or.inr ⟨cc, Or.inr hm, hcc⟩
    · rintro (hs | ⟨cc, (rfl | hm), hcc⟩)
      · exact Or.inl (Or.inr hs)
      · exact Or.inl (Or.inl hcc)
      · exact Or.inr ⟨cc, hm, hcc⟩

theorem nodup_foldl_insertOptAuthor (l : List Comment) :
    ∀ s : List Nat, s.Nodup →
      (l.foldl (fun s cc => insertOptAuthor s cc.author_id) s).Nodup := by
  induction l with
  | nil =>
    intro s hs
    exact hs
  | cons c t ih =>
    intro s hs
    rw [List.foldl_cons]
    exact ih _ (nodup_insertOptAuthor s c.author_id hs)

/-- Under distinct article primary keys, the active-article lookup finds a
row exactly when a matching live row is in the table. -/
theorem findActiveArticleById_mem_iff (db : DB) (aid : Nat)
    (hIds : (db.articles.map (fun a => a.id)).Nodup) (a : Article) :
    findActiveArticleById db aid = some a ↔
      a ∈ db.articles ∧ a.id = aid ∧ a.is_deleted = false := by
  constructor
  · intro h
    rw [findActiveArticleById] at h
    have hm := List.mem_of_find?_eq_some h
    have hp := List.find?_some h
    simp only [Bool.and_eq_true, beq_iff_eq, Bool.not_eq_true'] at hp
    exact ⟨hm, hp.1, hp.2⟩
  · rintro ⟨hm, hid, hdel⟩
    rw [findActiveArticleById]
    have hsome : (db.articles.find? (fun x => x.id == aid && !x.is_deleted)).isSome := by
      rw [List.find?_isSome]
      exact ⟨a, hm, by simp [hid, hdel]⟩
    obtain ⟨b, hbfind⟩ := Option.isSome_iff_exists.mp hsome
    have hbm := List.mem_of_find?_eq_some hbfind
    have hbp := List.find?_some hbfind
    simp only [Bool.and_eq_true, beq_iff_eq, Bool.not_eq_true'] at hbp
    have hba : b = a :=
      List.inj_on_of_nodup_map hIds hbm hm (by rw [hbp.1, hid])
    rw [hbfind, hba]

/-- A nodup list whose members all equal u and which holds u is [u]. -/
theorem nodup_all_eq_singleton {l : List Nat} {u : Nat} (hn : l.Nodup)
    (hm : u ∈ l) (ha : ∀ x ∈ l, x = u) : l = [u] := by
  cases l with
  | nil => cases hm
  | cons x t =>
    have hx : x = u := ha x (List.mem_cons_self _ _)
    subst hx
    have ht : t = [] := by
      cases t with
      | nil => rfl
      | cons y t2 =>
        have hy : y = x := ha y (List.mem_cons_of_mem _ (List.mem_cons_self _ _))
        rw [List.nodup_cons] at hn
        exact absurd (hy ▸ List.mem_cons_self y t2) hn.1
    rw [ht]

/-- C6: the recipient set of a write_comment fan-out over a live comment is
exactly the deduplicated union of the comment author, the author of the
containing live article when present, and the authors of every live comment
on that article; one notification document is written per distinct
recipient, and when all three roles are the same user exactly one document
is written. Stated under distinct article primary keys. -/
theorem comment_fanout_recipients (db : DB) (now comment_id : Nat) (c : Comment)
    (hIds : (db.articles.map (fun a => a.id)).Nodup)
    (hFind : findActiveCommentById db comment_id = some c) :
    (∀ u : Nat, u ∈ commentRecipients db c ↔
      (c.author_id = some u ∨
       (∃ a ∈ db.articles, c.article_id = some a.id ∧ a.is_deleted = false ∧
          a.author_id = some u) ∨
       (∃ cc ∈ db.comments, cc.article_id = c.article_id ∧
          cc.is_deleted = false ∧ cc.author_id = some u))) ∧
    (commentRecipients db c).Nodup ∧
    process_message (.write_comment comment_id) now db =
      (commentRecipients db c).map
        (fun uid => { title := "댓글이 작성되었습니다.", content := c.content,
                      userId := uid, isRead := false,
                      createdDate := now, updatedDate := now }) ∧
    (∀ u : Nat, c.author_id = some u →
      (∀ a ∈ db.articles, c.article_id = some a.id → a.is_deleted = false →
        a.author_id = some u) →
      (∀ cc ∈ db.comments, cc.article_id = c.article_id → cc.is_deleted = false →
        cc.author_id = some u) →
      (process_message (.write_comment comment_id) now db).length = 1) := by
  have hs2 : ∀ u : Nat,
      (u ∈ (match c.article_id with
        | some aid =>
          match findActiveArticleById db aid with
          | some a => insertOptAuthor (insertOptAuthor [] c.author_id) a.author_id
          | none => insertOptAuthor [] c.author_id
        | none => insertOptAuthor [] c.author_id : List Nat)) ↔
        (c.author_id = some u ∨
          ∃ a ∈ db.articles, c.article_id = some a.id ∧ a.is_deleted = false ∧
            a.author_id = some u) := by
    intro u
    rcases hcid : c.article_id with _ | aid
    · simp [mem_insertOptAuthor]
    · show u ∈ (match findActiveArticleById db aid with
          | some a => insertOptAuthor (insertOptAuthor [] c.author_id) a.author_id
          | none => insertOptAuthor [] c.author_id) ↔ _
      rcases hA : findActiveArticleById db aid with _ | a0
      · show u ∈ insertOptAuthor [] c.author_id ↔ _
        rw [findActiveArticleById, List.find?_eq_none] at hA
        constructor
        · intro hm
          rw [mem_insertOptAuthor] at hm
          rcases hm with hm | hm
          · exact Or.inl hm
          · cases hm
        · rintro (hm | ⟨a, ham, hid, hdel, hau⟩)
          · rw [mem_insertOptAuthor]
            exact Or.inl hm
          · have hid2 : a.id = aid := (Option.some.injEq _ _ ▸ hid).symm
            exact absurd (by simp [hid2, hdel]) (hA a ham)
      · show u ∈ insertOptAuthor (insertOptAuthor [] c.author_id) a0.author_id ↔ _
        have hfacts := (findActiveArticleById_mem_iff db aid hIds a0).mp hA
        constructor
        · intro hm
          rw [mem_insertOptAuthor] at hm
          rcases hm with hm | hm
          · refine Or.inr ⟨a0, hfacts.1, ?_, hfacts.2.2, hm⟩
            rw [hfacts.2.1]
          · rw [mem_insertOptAuthor] at hm
            rcases hm with hm | hm
            · exact Or.inl hm
            · cases hm
        · rintro (hm | ⟨a, ham, hid, hdel, hau⟩)
          · rw [mem_insertOptAuthor, mem_insertOptAuthor]
            exact Or.inr (Or.inl hm)
          · have hid2 : a.id = aid := (Option.some.injEq _ _ ▸ hid).symm
            have haa : a = a0 :=
              List.inj_on_of_nodup_map hIds ham hfacts.1
                (by rw [hid2, hfacts.2.1])
            rw [mem_insertOptAuthor]
            exact Or.inl (haa ▸ hau)
  have hmemiff : ∀ u : Nat, u ∈ commentRecipients db c ↔
      (c.author_id = some u ∨
       (∃ a ∈ db.articles, c.article_id = some a.id ∧ a.is_deleted = false ∧
          a.author_id = some u) ∨
       (∃ cc ∈ db.comments, cc.article_id = c.article_id ∧
          cc.is_deleted = false ∧ cc.author_id = some u)) := by
    intro u
    have hshape : u ∈ commentRecipients db c ↔
        u ∈ (db.comments.filter
          (fun cc => cc.article_id == c.article_id && !cc.is_deleted)).foldl
          (fun s cc => insertOptAuthor s cc.author_id)
          (match c.article_id with
            | some aid =>
              match findActiveArticleById db aid with
              | some a =>
                insertOptAuthor (insertOptAuthor [] c.author_id) a.author_id
              | none => insertOptAuthor [] c.author_id
            | none => insertOptAuthor [] c.author_id) := Iff.rfl
    rw [hshape, mem_foldl_insertOptAuthor, hs2 u]
    constructor
    · rintro ((h | h) | ⟨cc, hm, hcc⟩)
      · exact Or.inl h
      · exact Or.inr (Or.inl h)
      · have hm2 := List.mem_filter.mp hm
        have hp := hm2.2
        simp only [Bool.and_eq_true, beq_iff_eq, Bool.not_eq_true'] at hp
        exact Or.inr (Or.inr ⟨cc, hm2.1, hp.1, hp.2, hcc⟩)
    · rintro (h | h | ⟨cc, hm, hart, hdel, hau⟩)
      · exact Or.inl (Or.inl h)
      · exact Or.inl (Or.inr h)
      · refine Or.inr ⟨cc, List.mem_filter.mpr ⟨hm, ?_⟩, hau⟩
        simp [hart, hdel]
  have hnodup : (commentRecipients db c).Nodup := by
    rw [commentRecipients]
    refine nodup_foldl_insertOptAuthor _ _ ?_
    rcases c.article_id with _ | aid
    · exact nodup_insertOptAuthor _ _ List.nodup_nil
    · show (match findActiveArticleById db aid with
          | some a => insertOptAuthor (insertOptAuthor [] c.author_id) a.author_id
          | none => insertOptAuthor [] c.author_id).Nodup
      rcases findActiveArticleById db aid with _ | a0
      · exact nodup_insertOptAuthor _ _ List.nodup_nil
      · exact nodup_insertOptAuthor _ _
          (nodup_insertOptAuthor _ _ List.nodup_nil)
  have hproc : process_message (.write_comment comment_id) now db =
      (commentRecipients db c).map
        (fun uid => { title := "댓글이 작성되었습니다.", content := c.content,
                      userId := uid, isRead := false,
                      createdDate := now, updatedDate := now }) := by
    simp only [process_message, hFind]
  refine ⟨hmemiff, hnodup, hproc, ?_⟩
  intro u hcu hart hcom
  have hone : commentRecipients db c = [u] := by
    refine nodup_all_eq_singleton hnodup ((hmemiff u).mpr (Or.inl hcu)) ?_
    intro x hx
    rcases (hmemiff x).mp hx with h | ⟨a, ham, hid, hdel, hau⟩ | ⟨cc, hm, ha2, hd2, hau2⟩
    · rw [hcu] at h
      exact (Option.some.injEq _ _ ▸ h).symm
    · have := hart a ham hid hdel
      rw [this] at hau
      exact (Option.some.injEq _ _ ▸ hau).symm
    · have := hcom cc hm ha2 hd2
      rw [this] at hau2
      exact (Option.some.injEq _ _ ▸ hau2).symm
  rw [hproc, hone]
  rfl

/-- Concrete instance of the fan-out deduplication: user 7 wrote the
article, the triggering comment and the only other comment, and exactly one
notification document is produced. -/
theorem comment_fanout_recipients_witness :
    (process_message (.write_comment 5) 9
      ⟨[], [⟨1, "t", "c", some 7, some 2, false, 0, 0, none⟩],
        [⟨4, "first", some 7, some 1, false, 0, 0, none⟩,
         ⟨5, "second", some 7, some 1, false, 0, 0, none⟩], [], []⟩).length = 1 := by
  have h := comment_fanout_recipients
    ⟨[], [⟨1, "t", "c", some 7, some 2, false, 0, 0, none⟩],
      [⟨4, "first", some 7, some 1, false, 0, 0, none⟩,
       ⟨5, "second", some 7, some 1, false, 0, 0, none⟩], [], []⟩
    9 5 ⟨5, "second", some 7, some 1, false, 0, 0, none⟩
    (by decide) (by decide)
  exact h.2.2.2 7 (by decide) (by decide) (by decide)

/-! Helper lemmas for the daily unique-visitor aggregation: behavior of the
Python dict model and of the grouping pipelines. -/

theorem dictFind_cons (e : Nat × Nat) (t : List (Nat × Nat)) (j : Nat) :
    dictFind (e :: t) j = if e.1 == j then some e.2 else dictFind t j := by
  by_cases h : (e.1 == j) = true
  · simp [dictFind, List.find?_cons, h]
  · simp [dictFind, List.find?_cons, h]

theorem dictGetD_eq (m : List (Nat × Nat)) (j : Nat) :
    dictGetD m j = (dictFind m j).getD 0 := by
  rw [dictGetD, dictFind]
  cases m.find? (fun e => e.1 == j) <;> rfl

theorem dictFind_map_ne (t : List (Nat × Nat)) (k v j : Nat) (hjk : j ≠ k) :
    dictFind (t.map (fun e => if e.1 == k then (k, v) else e)) j =
      dictFind t j := by
  induction t with
  | nil => rfl
  | cons e t2 ih =>
    rw [List.map_cons, dictFind_cons, dictFind_cons]
    by_cases h : (e.1 == k) = true
    · have hek : e.1 = k := by simpa using h
      rw [if_pos h]
      rw [if_neg (by simp only [beq_iff_eq]; exact fun hh => hjk hh.symm)]
      rw [if_neg (by simp only [beq_iff_eq]; rw [hek]; exact fun hh => hjk hh.symm)]
      exact ih
    · rw [if_neg h]
      by_cases h2 : (e.1 == j) = true
      · rw [if_pos h2, if_pos h2]
      · rw [if_neg h2, if_neg h2]
        exact ih

theorem dictFind_dictSet (m : List (Nat × Nat)) (k v j : Nat) :
    dictFind (dictSet m k v) j = if j = k then some v else dictFind m j := by
  induction m with
  | nil =>
    have h0 : dictSet [] k v = [(k, v)] := by
      rw [dictSet, if_neg (by simp)]
      rfl
    rw [h0, dictFind_cons]
    by_cases h : j = k
    · subst h
      rw [if_pos (by simp), if_pos rfl]
    · have hkj : ¬ (((k, v) : Nat × Nat).1 == j) = true := by
        simp only [beq_iff_eq]
        exact fun hh => h hh.symm
      rw [if_neg hkj, if_neg h]
  | cons e t ih =>
    by_cases he : (e.1 == k) = true
    · have hek : e.1 = k := by simpa using he
      have hany : ((e :: t).any (fun x => x.1 == k)) = true := by
        simp [List.any_cons, he]
      rw [dictSet, if_pos hany, List.map_cons, if_pos he, dictFind_cons]
      by_cases hj : j = k
      · subst hj
        rw [if_pos (by simp), if_pos rfl]
      · have hkj : ¬ (((k, v) : Nat × Nat).1 == j) = true := by
          simp only [beq_iff_eq]
          exact fun hh => hj hh.symm
        have hej : ¬ (e.1 == j) = true := by
          simp only [beq_iff_eq, hek]
          exact fun hh => hj hh.symm
        rw [if_neg hkj, if_neg hj, dictFind_map_ne t k v j hj, dictFind_cons,
          if_neg hej]
    · have hstep : dictSet (e :: t) k v = e :: dictSet t k v := by
        rw [dictSet, dictSet]
        by_cases hany : (t.any (fun x => x.1 == k)) = true
        · rw [if_pos (by simp [List.any_cons, hany]), if_pos hany,
            List.map_cons, if_neg he]
        · rw [if_neg (by simp [List.any_cons, hany, he]), if_neg hany,
            List.cons_append]
      rw [hstep, dictFind_cons, ih, dictFind_cons]
      by_cases hj : (e.1 == j) = true
      · have hej : e.1 = j := by simpa using hj
        have hjk : ¬ j = k := by
          intro hh
          exact he (by rw [beq_iff_eq, hej, hh])
        rw [if_pos hj, if_neg hjk, if_pos hj]
      · rw [if_neg hj]
        by_cases hjk : j = k
        · rw [if_pos hjk, if_pos hjk]
        · rw [if_neg hjk, if_neg hjk, if_neg hj]

theorem dictSet_keys_map (m : List (Nat × Nat)) (k v : Nat) :
    ((m.map (fun e => if e.1 == k then (k, v) else e)).map (fun e => e.1)) =
      m.map (fun e => e.1) := by
  rw [List.map_map]
  refine List.map_congr_left (fun e _ => ?_)
  by_cases h : (e.1 == k) = true
  · have hek : e.1 = k := by simpa using h
    simp [Function.comp, h, hek]
  · simp [Function.comp, h]

theorem dictSet_keys_nodup (m : List (Nat × Nat)) (k v : Nat)
    (hm : (m.map (fun e => e.1)).Nodup) :
    ((dictSet m k v).map (fun e => e.1)).Nodup := by
  rw [dictSet]
  by_cases h : (m.any (fun e => e.1 == k)) = true
  · rw [if_pos h, dictSet_keys_map]
    exact hm
  · rw [if_neg h, List.map_append]
    refine List.Nodup.append hm (List.nodup_singleton k) ?_
    intro x hx hk
    rw [List.map_singleton, List.mem_singleton] at hk
    subst hk
    rw [List.mem_map] at hx
    obtain ⟨e, hem, hek⟩ := hx
    exact h (List.any_eq_true.mpr ⟨e, hem, by simp [hek]⟩)

theorem dictSet_keys_mem (m : List (Nat × Nat)) (k v j : Nat) :
    j ∈ (dictSet m k v).map (fun e => e.1) ↔
      j = k ∨ j ∈ m.map (fun e => e.1) := by
  rw [dictSet]
  by_cases h : (m.any (fun e => e.1 == k)) = true
  · rw [if_pos h, dictSet_keys_map]
    constructor
    · exact Or.inr
    · rintro (rfl | hj)
      · rw [List.any_eq_true] at h
        obtain ⟨e, hem, hek⟩ := h
        rw [beq_iff_eq] at hek
        exact List.mem_map.mpr ⟨e, hem, hek⟩
      · exact hj
  · rw [if_neg h, List.map_append, List.mem_append, List.map_singleton,
      List.mem_singleton]
    tauto

theorem mem_iff_dictFind (m : List (Nat × Nat))
    (hm : (m.map (fun e => e.1)).Nodup) (a c : Nat) :
    (a, c) ∈ m ↔ dictFind m a = some c := by
  induction m with
  | nil => simp [dictFind]
  | cons e t ih =>
    obtain ⟨k, v⟩ := e
    rw [List.map_cons, List.nodup_cons] at hm
    rw [List.mem_cons, dictFind_cons]
    by_cases h : (k == a) = true
    · have hka : k = a := by simpa using h
      subst hka
      rw [if_pos (by simp)]
      constructor
      · rintro (heq | hmem)
        · rw [Prod.mk.injEq] at heq
          rw [heq.2]
        · exact absurd (List.mem_map.mpr ⟨(k, c), hmem, rfl⟩) hm.1
      · intro hsome
        left
        rw [Option.some.injEq] at hsome
        rw [← hsome]
    · have hka : ¬ k = a := by simpa using h
      rw [if_neg (by simpa using h), ← ih hm.2]
      constructor
      · rintro (heq | hmem)
        · rw [Prod.mk.injEq] at heq
          exact absurd heq.1.symm hka
        · exact hmem
      · exact Or.inr

theorem foldIns_find (r : List (Nat × Nat)) :
    ∀ m : List (Nat × Nat),
      (∀ j ∈ r.map (fun e => e.1), j ∉ m.map (fun e => e.1)) →
      (r.map (fun e => e.1)).Nodup →
      ∀ j, dictFind (r.foldl (fun acc e => dictSet acc e.1 e.2) m) j =
        if j ∈ r.map (fun e => e.1) then dictFind r j else dictFind m j := by
  induction r with
  | nil =>
    intro m _ _ j
    rw [if_neg (by simp)]
    rfl
  | cons e t ih =>
    intro m hdis hnd j
    rw [List.map_cons, List.nodup_cons] at hnd
    rw [List.foldl_cons]
    have hdis2 : ∀ x ∈ t.map (fun e => e.1),
        x ∉ (dictSet m e.1 e.2).map (fun e => e.1) := by
      intro x hx hmem
      rcases (dictSet_keys_mem m e.1 e.2 x).mp hmem with rfl | hmem2
      · exact hnd.1 hx
      · exact hdis x (List.mem_cons_of_mem _ hx) hmem2
    rw [ih (dictSet m e.1 e.2) hdis2 hnd.2 j]
    by_cases hjt : j ∈ t.map (fun x => x.1)
    · have hmem1 : j ∈ (e :: t).map (fun x => x.1) := by
        rw [List.map_cons]
        exact List.mem_cons_of_mem _ hjt
      have hne : ¬ (e.1 == j) = true := by
        simp only [beq_iff_eq]
        intro hh
        exact hnd.1 (hh ▸ hjt)
      rw [if_pos hjt, if_pos hmem1, dictFind_cons, if_neg hne]
    · by_cases hje : j = e.1
      · subst hje
        have hmem1 : e.1 ∈ (e :: t).map (fun x => x.1) := by
          rw [List.map_cons]
          exact List.mem_cons_self _ _
        have hpos : (e.1 == e.1) = true := by simp
        rw [if_neg hjt, dictFind_dictSet, if_pos rfl, if_pos hmem1,
          dictFind_cons, if_pos hpos]
      · have hmem0 : j ∉ (e :: t).map (fun x => x.1) := by
          rw [List.map_cons, List.mem_cons]
          rintro (rfl | hc)
          · exact hje rfl
          · exact hjt hc
        rw [if_neg hjt, dictFind_dictSet, if_neg hje, if_neg hmem0]

theorem foldMerge_find (r : List (Nat × Nat)) :
    ∀ m : List (Nat × Nat),
      (r.map (fun e => e.1)).Nodup →
      ∀ j, dictFind
          (r.foldl (fun acc e => dictSet acc e.1 (dictGetD acc e.1 + e.2)) m) j =
        if j ∈ r.map (fun e => e.1)
        then some (dictGetD m j + dictGetD r j)
        else dictFind m j := by
  induction r with
  | nil =>
    intro m _ j
    rw [if_neg (by simp)]
    rfl
  | cons e t ih =>
    intro m hnd j
    rw [List.map_cons, List.nodup_cons] at hnd
    rw [List.foldl_cons, ih (dictSet m e.1 (dictGetD m e.1 + e.2)) hnd.2 j]
    by_cases hjt : j ∈ t.map (fun x => x.1)
    · have hje : ¬ j = e.1 := fun hh => hnd.1 (hh ▸ hjt)
      have hmem1 : j ∈ (e :: t).map (fun x => x.1) := by
        rw [List.map_cons]
        exact List.mem_cons_of_mem _ hjt
      have hne : ¬ (e.1 == j) = true := by
        simp only [beq_iff_eq]
        exact fun hh => hje hh.symm
      rw [if_pos hjt, if_pos hmem1,
        dictGetD_eq (dictSet m e.1 (dictGetD m e.1 + e.2)) j,
        dictFind_dictSet, if_neg hje, ← dictGetD_eq,
        dictGetD_eq (e :: t) j, dictFind_cons, if_neg hne, ← dictGetD_eq]
    · rw [if_neg hjt, dictFind_dictSet]
      by_cases hje : j = e.1
      · subst hje
        have hmem1 : e.1 ∈ (e :: t).map (fun x => x.1) := by
          rw [List.map_cons]
          exact List.mem_cons_self _ _
        have hpos : (e.1 == e.1) = true := by simp
        rw [if_pos rfl, if_pos hmem1,
          dictGetD_eq (e :: t) e.1, dictFind_cons, if_pos hpos]
        rfl
      · have hmem0 : j ∉ (e :: t).map (fun x => x.1) := by
          rw [List.map_cons, List.mem_cons]
          rintro (rfl | hc)
          · exact hje rfl
          · exact hjt hc
        rw [if_neg hje, if_neg hmem0]

theorem foldIns_keys_nodup (r : List (Nat × Nat)) :
    ∀ m : List (Nat × Nat), (m.map (fun e => e.1)).Nodup →
      ((r.foldl (fun acc e => dictSet acc e.1 e.2) m).map (fun e => e.1)).Nodup := by
  induction r with
  | nil =>
    intro m hm
    exact hm
  | cons e t ih =>
    intro m hm
    rw [List.foldl_cons]
    exact ih _ (dictSet_keys_nodup m e.1 e.2 hm)

theorem foldMerge_keys_nodup (r : List (Nat × Nat)) :
    ∀ m : List (Nat × Nat), (m.map (fun e => e.1)).Nodup →
      ((r.foldl (fun acc e => dictSet acc e.1 (dictGetD acc e.1 + e.2)) m).map
        (fun e => e.1)).Nodup := by
  induction r with
  | nil =>
    intro m hm
    exact hm
  | cons e t ih =>
    intro m hm
    rw [List.foldl_cons]
    exact ih _ (dictSet_keys_nodup m e.1 _ hm)

theorem dictFind_map_pair (ks : List Nat) (g : Nat → Nat) (a : Nat) :
    dictFind (ks.map (fun x => (x, g x))) a =
      if a ∈ ks then some (g a) else none := by
  induction ks with
  | nil => simp [dictFind]
  | cons x t ih =>
    rw [List.map_cons, dictFind_cons]
    by_cases h : x = a
    · subst h
      rw [if_pos (by simp), if_pos (List.mem_cons_self _ _)]
    · rw [if_neg (by simpa using h), ih]
      by_cases h2 : a ∈ t
      · rw [if_pos h2, if_pos (List.mem_cons_of_mem _ h2)]
      · rw [if_neg h2, if_neg ?_]
        rw [List.mem_cons]
        rintro (rfl | hc)
        · exact h rfl
        · exact h2 hc

theorem groupDistinct_keys (docs : List HistoryDoc) (key : HistoryDoc → String) :
    (groupDistinct docs key).map (fun e => e.1) =
      (docs.map (fun d => d.ad_id)).dedup := by
  rw [groupDistinct, List.map_map]
  have hcomp : ((fun e : Nat × Nat => e.1) ∘ fun a =>
      (a, ((docs.filter (fun d => d.ad_id == a)).map key).dedup.length)) =
      fun a => a := rfl
  rw [hcomp]
  exact List.map_id _

theorem groupDistinct_find (docs : List HistoryDoc) (key : HistoryDoc → String)
    (a : Nat) :
    dictFind (groupDistinct docs key) a =
      if a ∈ docs.map (fun d => d.ad_id)
      then some (((docs.filter (fun d => d.ad_id == a)).map key).dedup.length)
      else none := by
  rw [groupDistinct, dictFind_map_pair]
  by_cases h : a ∈ docs.map (fun d => d.ad_id)
  · rw [if_pos (List.mem_dedup.mpr h), if_pos h]
  · rw [if_neg (fun hh => h (List.mem_dedup.mp hh)), if_neg h]

theorem identifiedCount_filter_eq (docs : List HistoryDoc) (lo hi a : Nat) :
    (((((docs.filter (inWindow lo hi)).filter
        (fun d => d.username.isSome)).filter (fun d => d.ad_id == a)).map
      (fun d => d.username.getD "")).dedup.length) =
      identifiedVisitorCount docs lo hi a := by
  rw [identifiedVisitorCount]
  have hfil : ((docs.filter (inWindow lo hi)).filter
        (fun d => d.username.isSome)).filter (fun d => d.ad_id == a) =
      docs.filter (fun d =>
        inWindow lo hi d && d.username.isSome && d.ad_id == a) := by
    simp only [List.filter_filter]
    refine List.filter_congr (fun d _ => ?_)
    cases hw : inWindow lo hi d <;> cases hs : d.username.isSome <;>
      cases ha : (d.ad_id == a) <;> simp [hw, hs, ha]
  rw [hfil]

theorem anonCount_filter_eq (docs : List HistoryDoc) (lo hi a : Nat) :
    (((((docs.filter (inWindow lo hi)).filter
        (fun d => d.username.isNone)).filter (fun d => d.ad_id == a)).map
      (fun d => d.client_ip)).dedup.length) =
      anonVisitorCount docs lo hi a := by
  rw [anonVisitorCount]
  have hfil : ((docs.filter (inWindow lo hi)).filter
        (fun d => d.username.isNone)).filter (fun d => d.ad_id == a) =
      docs.filter (fun d =>
        inWindow lo hi d && d.username.isNone && d.ad_id == a) := by
    simp only [List.filter_filter]
    refine List.filter_congr (fun d _ => ?_)
    cases hw : inWindow lo hi d <;> cases hs : d.username.isNone <;>
      cases ha : (d.ad_id == a) <;> simp [hw, hs, ha]
  rw [hfil]

theorem identifiedVisitorCount_zero (docs : List HistoryDoc) (lo hi a : Nat)
    (h : ∀ d ∈ docs, inWindow lo hi d = true → d.username.isSome = true →
      d.ad_id ≠ a) :
    identifiedVisitorCount docs lo hi a = 0 := by
  rw [identifiedVisitorCount]
  have hnil : docs.filter (fun d =>
      inWindow lo hi d && d.username.isSome && d.ad_id == a) = [] := by
    rw [List.filter_eq_nil_iff]
    intro d hd hp
    simp only [Bool.and_eq_true, beq_iff_eq] at hp
    exact h d hd hp.1.1 hp.1.2 hp.2
  rw [hnil]
  rfl

theorem anonVisitorCount_zero (docs : List HistoryDoc) (lo hi a : Nat)
    (h : ∀ d ∈ docs, inWindow lo hi d = true → d.username.isNone = true →
      d.ad_id ≠ a) :
    anonVisitorCount docs lo hi a = 0 := by
  rw [anonVisitorCount]
  have hnil : docs.filter (fun d =>
      inWindow lo hi d && d.username.isNone && d.ad_id == a) = [] := by
    rw [List.filter_eq_nil_iff]
    intro d hd hp
    simp only [Bool.and_eq_true, beq_iff_eq] at hp
    exact h d hd hp.1.1 hp.1.2 hp.2
  rw [hnil]
  rfl

/-- C7: the daily unique-visitor aggregation partitions the events of the
window of yesterday into identified events (username present, distinguished
by username) and anonymous events (username absent or null, distinguished
by client address); per ad id it reports the sum of the two distinct
counts, lists each ad id at most once, and an ad with no event in the
window is absent from the result rather than reported as zero. -/
theorem history_stats_daily_unique (now : Nat) (docs : List HistoryDoc) :
    (((_get_history_stats now docs).map (fun e => e.1)).Nodup) ∧
    (∀ a c : Nat, (a, c) ∈ _get_history_stats now docs ↔
      ((∃ d ∈ docs,
          inWindow (_yesterday_range now).1 (_yesterday_range now).2 d = true ∧
          d.ad_id = a) ∧
        c = identifiedVisitorCount docs (_yesterday_range now).1
              (_yesterday_range now).2 a +
            anonVisitorCount docs (_yesterday_range now).1
              (_yesterday_range now).2 a)) := by
  have hunf : _get_history_stats now docs =
      (groupDistinct
        ((docs.filter
          (inWindow (_yesterday_range now).1 (_yesterday_range now).2)).filter
          (fun d => d.username.isNone))
        (fun d => d.client_ip)).foldl
        (fun m e => dictSet m e.1 (dictGetD m e.1 + e.2))
        ((groupDistinct
          ((docs.filter
            (inWindow (_yesterday_range now).1 (_yesterday_range now).2)).filter
            (fun d => d.username.isSome))
          (fun d => d.username.getD "")).foldl
          (fun m e => dictSet m e.1 e.2) []) := rfl
  rw [hunf]
  generalize (_yesterday_range now).1 = lo
  generalize (_yesterday_range now).2 = hi
  set ud := (docs.filter (inWindow lo hi)).filter (fun d => d.username.isSome)
    with hud
  set ad2 := (docs.filter (inWindow lo hi)).filter (fun d => d.username.isNone)
    with had
  set rU := groupDistinct ud (fun d => d.username.getD "") with hrU
  set rA := groupDistinct ad2 (fun d => d.client_ip) with hrA
  set tU := rU.foldl (fun m e => dictSet m e.1 e.2) ([] : List (Nat × Nat))
    with htU
  have hUnd : (rU.map (fun e => e.1)).Nodup := by
    rw [hrU, groupDistinct_keys]
    exact List.nodup_dedup _
  have hAnd2 : (rA.map (fun e => e.1)).Nodup := by
    rw [hrA, groupDistinct_keys]
    exact List.nodup_dedup _
  have htUnd : (tU.map (fun e => e.1)).Nodup := by
    rw [htU]
    exact foldIns_keys_nodup _ _ (by simp)
  have hresnd := foldMerge_keys_nodup rA tU htUnd
  constructor
  · exact hresnd
  intro a c
  have hUmem : a ∈ rU.map (fun e => e.1) ↔ a ∈ ud.map (fun d => d.ad_id) := by
    rw [hrU, groupDistinct_keys, List.mem_dedup]
  have hAmem : a ∈ rA.map (fun e => e.1) ↔ a ∈ ad2.map (fun d => d.ad_id) := by
    rw [hrA, groupDistinct_keys, List.mem_dedup]
  have hUfind := groupDistinct_find ud (fun d => d.username.getD "") a
  have hAfind := groupDistinct_find ad2 (fun d => d.client_ip) a
  rw [← hrU] at hUfind
  rw [← hrA] at hAfind
  have htUfind : dictFind tU a =
      if a ∈ rU.map (fun e => e.1) then dictFind rU a else dictFind [] a := by
    rw [htU]
    exact foldIns_find rU [] (by simp) hUnd a
  have hcntU : (((ud.filter (fun d => d.ad_id == a)).map
      (fun d => d.username.getD "")).dedup.length) =
      identifiedVisitorCount docs lo hi a := by
    rw [hud]
    exact identifiedCount_filter_eq docs lo hi a
  have hcntA : (((ad2.filter (fun d => d.ad_id == a)).map
      (fun d => d.client_ip)).dedup.length) =
      anonVisitorCount docs lo hi a := by
    rw [had]
    exact anonCount_filter_eq docs lo hi a
  have hex : (∃ d ∈ docs, inWindow lo hi d = true ∧ d.ad_id = a) ↔
      (a ∈ ud.map (fun d => d.ad_id) ∨ a ∈ ad2.map (fun d => d.ad_id)) := by
    constructor
    · rintro ⟨d, hd, hw, hda⟩
      by_cases hs : d.username.isSome = true
      · left
        refine List.mem_map.mpr ⟨d, ?_, hda⟩
        rw [hud]
        exact List.mem_filter.mpr ⟨List.mem_filter.mpr ⟨hd, hw⟩, hs⟩
      · right
        refine List.mem_map.mpr ⟨d, ?_, hda⟩
        rw [had]
        have hn : d.username.isNone = true := by
          cases hu2 : d.username
          · rfl
          · rw [hu2] at hs
            exact absurd rfl hs
        exact List.mem_filter.mpr ⟨List.mem_filter.mpr ⟨hd, hw⟩, hn⟩
    · rintro (hm | hm)
      · obtain ⟨d, hd, hda⟩ := List.mem_map.mp hm
        rw [hud] at hd
        have h1 := List.mem_filter.mp hd
        have h2 := List.mem_filter.mp h1.1
        exact ⟨d, h2.1, h2.2, hda⟩
      · obtain ⟨d, hd, hda⟩ := List.mem_map.mp hm
        rw [had] at hd
        have h1 := List.mem_filter.mp hd
        have h2 := List.mem_filter.mp h1.1
        exact ⟨d, h2.1, h2.2, hda⟩
  have hIU0 : a ∉ ud.map (fun d => d.ad_id) →
      identifiedVisitorCount docs lo hi a = 0 := by
    intro hnot
    refine identifiedVisitorCount_zero docs lo hi a ?_
    intro d hd hw hs hda
    refine hnot (List.mem_map.mpr ⟨d, ?_, hda⟩)
    rw [hud]
    exact List.mem_filter.mpr ⟨List.mem_filter.mpr ⟨hd, hw⟩, hs⟩
  have hIA0 : a ∉ ad2.map (fun d => d.ad_id) →
      anonVisitorCount docs lo hi a = 0 := by
    intro hnot
    refine anonVisitorCount_zero docs lo hi a ?_
    intro d hd hw hs hda
    refine hnot (List.mem_map.mpr ⟨d, ?_, hda⟩)
    rw [had]
    exact List.mem_filter.mpr ⟨List.mem_filter.mpr ⟨hd, hw⟩, hs⟩
  rw [mem_iff_dictFind _ hresnd a c, foldMerge_find rA tU hAnd2 a]
  by_cases hA : a ∈ rA.map (fun e => e.1)
  · rw [if_pos hA]
    have hAm := hAmem.mp hA
    have hgA : dictGetD rA a = anonVisitorCount docs lo hi a := by
      rw [dictGetD_eq, hAfind, if_pos hAm, Option.getD_some, hcntA]
    by_cases hU : a ∈ rU.map (fun e => e.1)
    · have hUm := hUmem.mp hU
      have hgU : dictGetD tU a = identifiedVisitorCount docs lo hi a := by
        rw [dictGetD_eq, htUfind, if_pos hU, hUfind, if_pos hUm,
          Option.getD_some, hcntU]
      rw [hgU, hgA]
      constructor
      · intro hsome
        rw [Option.some.injEq] at hsome
        exact ⟨hex.mpr (Or.inl hUm), hsome.symm⟩
      · rintro ⟨_, hc⟩
        rw [hc]
    · have hUm : a ∉ ud.map (fun d => d.ad_id) := fun hh => hU (hUmem.mpr hh)
      have hgU : dictGetD tU a = 0 := by
        rw [dictGetD_eq, htUfind, if_neg hU]
        rfl
      rw [hgU, hgA, hIU0 hUm]
      constructor
      · intro hsome
        rw [Option.some.injEq] at hsome
        exact ⟨hex.mpr (Or.inr hAm), hsome.symm⟩
      · rintro ⟨_, hc⟩
        rw [hc]
  · rw [if_neg hA]
    have hAm : a ∉ ad2.map (fun d => d.ad_id) := fun hh => hA (hAmem.mpr hh)
    by_cases hU : a ∈ rU.map (fun e => e.1)
    · have hUm := hUmem.mp hU
      have hgU : dictFind tU a =
          some (identifiedVisitorCount docs lo hi a) := by
        rw [htUfind, if_pos hU, hUfind, if_pos hUm, hcntU]
      rw [hgU, hIA0 hAm, Nat.add_zero]
      constructor
      · intro hsome
        rw [Option.some.injEq] at hsome
        exact ⟨hex.mpr (Or.inl hUm), hsome.symm⟩
      · rintro ⟨_, hc⟩
        rw [hc]
    · have hgU : dictFind tU a = none := by
        rw [htUfind, if_neg hU]
        rfl
      rw [hgU]
      constructor
      · intro hsome
        cases hsome
      · rintro ⟨hexist, _⟩
        rcases hex.mp hexist with hm | hm
        · exact absurd (hUmem.mpr hm) hU
        · exact absurd (hAmem.mpr hm) hA

/-- Concrete instance of the aggregation theorem: two identified events by
the same username and one anonymous event on ad 5, inside the window of
yesterday, yield the entry (5, 2). -/
theorem history_stats_daily_unique_witness :
    (5, 2) ∈ _get_history_stats 172800
      [⟨5, some "alice", "ip1", 90000⟩,
       ⟨5, some "alice", "ip2", 90001⟩,
       ⟨5, none, "ip3", 90002⟩,
       ⟨6, none, "ip4", 200000⟩] := by
  refine ((history_stats_daily_unique 172800
    [⟨5, some "alice", "ip1", 90000⟩,
     ⟨5, some "alice", "ip2", 90001⟩,
     ⟨5, none, "ip3", 90002⟩,
     ⟨6, none, "ip4", 200000⟩]).2 5 2).mpr ⟨?_, ?_⟩
  · exact ⟨⟨5, some "alice", "ip1", 90000⟩, by decide, by decide, rfl⟩
  · decide

end WikibookDB
